import Mathlib

/-!
# goplay: the concurrent weather aggregator of `hello.go`

A shallow embedding of `multiWeatherProvider.temperature`, of the three concrete
providers and of `location`, followed by the properties proved about them.

* Temperatures are exact rationals (`ℚ`): rounding of `float64` is not modelled.
  The one place where IEEE-754 differs from field arithmetic on the values the
  program can produce, the division `sum / float64(len(w))` with a zero divisor,
  is modelled by `divFloat64`.
* The goroutines of `multiWeatherProvider.temperature` are modelled by an
  executable step function over an explicit state (program counters of the
  calling goroutine and of every launched goroutine, and the two buffered
  channels); a schedule is a list of actions.
* The HTTP client and the JSON decoder are library code: the providers take
  them as parameters.
-/

namespace GoPlay

/-! ## Values -/

/-- A `float64` result over exact arithmetic: a finite value, an infinity or NaN. -/
inductive F64 where
  | fin (q : ℚ)
  | posInf
  | negInf
  | nan
deriving DecidableEq

/-- The division `x / float64(n)` of line 129, for a length `n`: IEEE-754 gives NaN for
`0 / 0` and a signed infinity for a non-zero dividend over zero. -/
def divFloat64 (x : ℚ) (n : Nat) : F64 :=
  if n = 0 then
    if x = 0 then F64.nan else if 0 < x then F64.posInf else F64.negInf
  else F64.fin (x / (n : ℚ))

/-! ## Providers as seen by the aggregator -/

/-- What a call `p.temperature(city)` does: it returns the pair `(k, err)`
(`err = none` is Go's `nil`), or it never returns. A provider that panics takes
the whole process down and is not part of the model of the aggregator. -/
inductive Call (ε : Type) where
  | ret (k : ℚ) (err : Option ε)
  | hang

/-- The interface `weatherProvider`: one method `temperature(city)`. -/
abbrev weatherProvider (ε : Type) := String → Call ε

/-- The type `multiWeatherProvider []weatherProvider`. -/
abbrev multiWeatherProvider (ε : Type) := List (weatherProvider ε)

/-! ## State of one call of `multiWeatherProvider.temperature` -/

/-- Program counter of a launched goroutine (lines 109-116). -/
inductive TaskPc (ε : Type) where
  /-- The goroutine is inside `p.temperature(city)` (line 110). -/
  | calling
  /-- The call returned `(k, err)`; the goroutine is about to send (lines 111-115). -/
  | returned (k : ℚ) (err : Option ε)
  /-- The goroutine has sent its outcome and exited. -/
  | done

/-- A launched goroutine: its argument `p` and its program counter. -/
structure Task (ε : Type) where
  p : weatherProvider ε
  pc : TaskPc ε

/-- Program counter of the goroutine that runs `temperature` itself. -/
inductive MainPc (ε : Type) where
  /-- At the head of the `range w` loop (line 108), `i` iterations done. -/
  | launching (i : Nat)
  /-- At the head of the `for i` loop (line 121) with loop counter `i` and running `sum`. -/
  | selecting (i : Nat) (sum : ℚ)
  /-- The call has returned `(v, err)` (line 126 or line 129). -/
  | returned (v : F64) (err : Option ε)

/-- The state of one call: both program counters and the contents of the two
buffered channels `temps` and `errs` (oldest element first). -/
structure State (ε : Type) where
  main : MainPc ε
  tasks : List (Task ε)
  temps : List ℚ
  errs : List ε

/-- The atomic actions of a call. -/
inductive Action where
  /-- One iteration of the `range w` loop: the `go` statement of line 109. -/
  | launch
  /-- The `range w` loop is over; `sum := 0.0` and `i := 0` (lines 119-121). -/
  | enterLoop
  /-- The `select` takes the case `temp := <-temps` (lines 123-124). -/
  | recvTemp
  /-- The `select` takes the case `err := <-errs` (lines 125-126). -/
  | recvErr
  /-- The `for i` loop is over; `return sum / float64(len(w)), nil` (line 129). -/
  | finish
  /-- The provider call of goroutine `j` returns (line 110). -/
  | call (j : Nat)
  /-- The goroutine `j` sends its outcome on `errs` or on `temps` (lines 111-115). -/
  | publish (j : Nat)
deriving DecidableEq

variable {ε : Type}

/-- The state at entry of `temperature`: nothing launched, both channels just made. -/
def start : State ε :=
  { main := MainPc.launching 0, tasks := [], temps := [], errs := [] }

/-- One atomic action of `multiWeatherProvider.temperature` on `w` and `city`;
`none` when the action is not enabled in `s`. Both channels have capacity
`len(w)` (lines 105-106): a send is enabled only below that capacity, a receive
only on a non-empty channel. -/
def step (w : multiWeatherProvider ε) (city : String) (s : State ε) :
    Action → Option (State ε)
  | Action.launch =>
    match s.main with
    | MainPc.launching i =>
      match w[i]? with
      | some p =>
        some { s with main := MainPc.launching (i + 1),
                      tasks := s.tasks ++ [{ p := p, pc := TaskPc.calling }] }
      | none => none
    | _ => none
  | Action.enterLoop =>
    match s.main with
    | MainPc.launching i =>
      if w.length ≤ i then some { s with main := MainPc.selecting 0 0 } else none
    | _ => none
  | Action.recvTemp =>
    match s.main, s.temps with
    | MainPc.selecting i sum, temp :: rest =>
      if i < w.length then
        some { s with main := MainPc.selecting (i + 1) (sum + temp), temps := rest }
      else none
    | _, _ => none
  | Action.recvErr =>
    match s.main, s.errs with
    | MainPc.selecting i _, err :: rest =>
      if i < w.length then
        some { s with main := MainPc.returned (F64.fin 0) (some err), errs := rest }
      else none
    | _, _ => none
  | Action.finish =>
    match s.main with
    | MainPc.selecting i sum =>
      if w.length ≤ i then
        some { s with main := MainPc.returned (divFloat64 sum w.length) none }
      else none
    | _ => none
  | Action.call j =>
    match s.tasks[j]? with
    | some { p := p, pc := TaskPc.calling } =>
      match p city with
      | Call.ret k err => some { s with tasks := s.tasks.set j { p := p, pc := TaskPc.returned k err } }
      | Call.hang => none
    | _ => none
  | Action.publish j =>
    match s.tasks[j]? with
    | some { p := p, pc := TaskPc.returned k none } =>
      if s.temps.length < w.length then
        some { s with tasks := s.tasks.set j { p := p, pc := TaskPc.done },
                      temps := s.temps ++ [k] }
      else none
    | some { p := p, pc := TaskPc.returned _ (some err) } =>
      if s.errs.length < w.length then
        some { s with tasks := s.tasks.set j { p := p, pc := TaskPc.done },
                      errs := s.errs ++ [err] }
      else none
    | _ => none

/-- Runs a schedule (a list of actions) from `s`; `none` when some action of the
schedule is not enabled at its turn. -/
def run (w : multiWeatherProvider ε) (city : String) (s : State ε) :
    List Action → Option (State ε)
  | [] => some s
  | a :: rest =>
    match step w city s a with
    | some s' => run w city s' rest
    | none => none

/-- The pair `(value, error)` returned by the call, once it has returned. -/
def State.result (s : State ε) : Option (F64 × Option ε) :=
  match s.main with
  | MainPc.returned v err => some (v, err)
  | _ => none

/-- The pair returned by `multiWeatherProvider.temperature` on `w` and `city` when the
goroutines are scheduled as `sched`; `none` when `sched` is not an execution or
the call has not returned at its end. -/
def multiWeatherProvider.temperature (w : multiWeatherProvider ε) (city : String)
    (sched : List Action) : Option (F64 × Option ε) :=
  (run w city start sched).bind State.result

/-- Nothing is left to run: the call has returned and every goroutine has exited. -/
def State.terminal (s : State ε) : Prop :=
  (∃ v err, s.main = MainPc.returned v err) ∧ ∀ t ∈ s.tasks, t.pc = TaskPc.done

/-- Relational view of `step`, one constructor per way an action can fire;
`step_eq_some_iff` shows that it is the same relation. -/
inductive Step (w : multiWeatherProvider ε) (city : String) :
    State ε → Action → State ε → Prop
  | launch (s : State ε) (i : Nat) (p : weatherProvider ε)
      (hm : s.main = MainPc.launching i) (hp : w[i]? = some p) :
      Step w city s Action.launch
        { s with main := MainPc.launching (i + 1),
                 tasks := s.tasks ++ [{ p := p, pc := TaskPc.calling }] }
  | enterLoop (s : State ε) (i : Nat)
      (hm : s.main = MainPc.launching i) (hi : w.length ≤ i) :
      Step w city s Action.enterLoop { s with main := MainPc.selecting 0 0 }
  | recvTemp (s : State ε) (i : Nat) (sum temp : ℚ) (rest : List ℚ)
      (hm : s.main = MainPc.selecting i sum) (ht : s.temps = temp :: rest)
      (hi : i < w.length) :
      Step w city s Action.recvTemp
        { s with main := MainPc.selecting (i + 1) (sum + temp), temps := rest }
  | recvErr (s : State ε) (i : Nat) (sum : ℚ) (err : ε) (rest : List ε)
      (hm : s.main = MainPc.selecting i sum) (he : s.errs = err :: rest)
      (hi : i < w.length) :
      Step w city s Action.recvErr
        { s with main := MainPc.returned (F64.fin 0) (some err), errs := rest }
  | finish (s : State ε) (i : Nat) (sum : ℚ)
      (hm : s.main = MainPc.selecting i sum) (hi : w.length ≤ i) :
      Step w city s Action.finish
        { s with main := MainPc.returned (divFloat64 sum w.length) none }
  | call (s : State ε) (j : Nat) (p : weatherProvider ε) (k : ℚ) (err : Option ε)
      (ht : s.tasks[j]? = some { p := p, pc := TaskPc.calling })
      (hc : p city = Call.ret k err) :
      Step w city s (Action.call j)
        { s with tasks := s.tasks.set j { p := p, pc := TaskPc.returned k err } }
  | publishTemp (s : State ε) (j : Nat) (p : weatherProvider ε) (k : ℚ)
      (ht : s.tasks[j]? = some { p := p, pc := TaskPc.returned k none })
      (hcap : s.temps.length < w.length) :
      Step w city s (Action.publish j)
        { s with tasks := s.tasks.set j { p := p, pc := TaskPc.done },
                 temps := s.temps ++ [k] }
  | publishErr (s : State ε) (j : Nat) (p : weatherProvider ε) (k : ℚ) (err : ε)
      (ht : s.tasks[j]? = some { p := p, pc := TaskPc.returned k (some err) })
      (hcap : s.errs.length < w.length) :
      Step w city s (Action.publish j)
        { s with tasks := s.tasks.set j { p := p, pc := TaskPc.done },
                 errs := s.errs ++ [err] }

/-! ## Bookkeeping used by the invariants -/

/-- Counts a goroutine that has exited after its provider succeeded. -/
def okDone (city : String) (t : Task ε) : Nat :=
  match t.pc, t.p city with
  | TaskPc.done, Call.ret _ none => 1
  | _, _ => 0

/-- Counts a goroutine that has exited after its provider failed. -/
def errDone (city : String) (t : Task ε) : Nat :=
  match t.pc, t.p city with
  | TaskPc.done, Call.ret _ (some _) => 1
  | _, _ => 0

/-- The value sent on `temps` by a goroutine that has exited, else 0. -/
def valDone (city : String) (t : Task ε) : ℚ :=
  match t.pc, t.p city with
  | TaskPc.done, Call.ret k none => k
  | _, _ => 0

/-- The value a provider returns on success, else 0. -/
def okVal (city : String) (p : weatherProvider ε) : ℚ :=
  match p city with
  | Call.ret k none => k
  | _ => 0

/-- The two shapes of a returned pair `(v, err)`: the mean of all providers'
values with a nil error when every provider succeeded, or 0 with the error of
a failing provider. -/
def Outcome (w : multiWeatherProvider ε) (city : String) (v : F64) (err : Option ε) : Prop :=
  (err = none ∧ (∀ p ∈ w, ∃ k, p city = Call.ret k none) ∧
      v = divFloat64 ((w.map (okVal city)).sum) w.length) ∨
  (∃ e, err = some e ∧ v = F64.fin 0 ∧ ∃ p ∈ w, ∃ k, p city = Call.ret k (some e))

/-- The invariant of a call: goroutine `j` runs provider `w[j]`, program counters
agree with what the providers return, and what is in the channels plus what
the loop has received is what the exited goroutines have sent. -/
structure Inv (w : multiWeatherProvider ε) (city : String) (s : State ε) : Prop where
  providers : s.tasks.map Task.p = w.take s.tasks.length
  launching : ∀ i, s.main = MainPc.launching i → s.tasks.length = i
  launched : (∀ i, s.main ≠ MainPc.launching i) → s.tasks.length = w.length
  pcs : ∀ t ∈ s.tasks,
    (∀ k err, t.pc = TaskPc.returned k err → t.p city = Call.ret k err) ∧
    (t.pc = TaskPc.done → ∃ k err, t.p city = Call.ret k err)
  beforeLoop : ∀ i, s.main = MainPc.launching i →
    s.temps.length = (s.tasks.map (okDone city)).sum ∧
    s.temps.sum = (s.tasks.map (valDone city)).sum ∧
    s.errs.length = (s.tasks.map (errDone city)).sum
  inLoop : ∀ i sum, s.main = MainPc.selecting i sum →
    i + s.temps.length = (s.tasks.map (okDone city)).sum ∧
    sum + s.temps.sum = (s.tasks.map (valDone city)).sum ∧
    s.errs.length = (s.tasks.map (errDone city)).sum
  afterLoop : ∀ v err, s.main = MainPc.returned v err →
    s.temps.length ≤ (s.tasks.map (okDone city)).sum ∧
    s.errs.length ≤ (s.tasks.map (errDone city)).sum ∧
    Outcome w city v err
  errsMem : ∀ e ∈ s.errs, ∃ p ∈ w, ∃ k, p city = Call.ret k (some e)

/-- The error, if any, that action `a` sends on the channel `errs` when it fires in `s`. -/
def sends (s : State ε) : Action → Option ε
  | Action.publish j =>
    match s.tasks[j]? with
    | some { p := _, pc := TaskPc.returned _ (some err) } => some err
    | _ => none
  | _ => none

/-- The errors sent on `errs` along a schedule run from `s`, in the order of the sends. -/
def errsLog (w : multiWeatherProvider ε) (city : String) (s : State ε) :
    List Action → List ε
  | [] => []
  | a :: rest =>
    match step w city s a with
    | some s' => (sends s a).toList ++ errsLog w city s' rest
    | none => []

/-- The number of outcomes the fan-in loop receives along a schedule. -/
def received (sched : List Action) : Nat :=
  sched.count Action.recvTemp + sched.count Action.recvErr

/-- A bound on the number of actions the calling goroutine can still take. -/
def MainPc.fuel (n : Nat) : MainPc ε → Nat
  | MainPc.launching i => 3 * (n - i) + n + 2
  | MainPc.selecting i _ => (n - i) + 1
  | MainPc.returned _ _ => 0

/-- The number of actions a launched goroutine can still take. -/
def TaskPc.fuel : TaskPc ε → Nat
  | TaskPc.calling => 2
  | TaskPc.returned _ _ => 1
  | TaskPc.done => 0

/-- A bound on the number of actions that can still be taken from `s`. -/
def State.fuel (n : Nat) (s : State ε) : Nat :=
  s.main.fuel n + (s.tasks.map (fun t => t.pc.fuel)).sum

/-- Every call that has not returned yet can still return: no provider of a
goroutine that is inside its call hangs. -/
def State.callsCanReturn (city : String) (s : State ε) : Prop :=
  ∀ t ∈ s.tasks, t.pc = TaskPc.calling → ∃ k err, t.p city = Call.ret k err

/-- The call `temperature(city)` on `w` returns, under every schedule, a pair that
satisfies `P`: no execution is longer than `4 * len(w) + 2` actions, an execution
in which the call has not returned yet can always be continued, and whenever
the call has returned its pair satisfies `P`. -/
def ReturnsWith (w : multiWeatherProvider ε) (city : String)
    (P : F64 × Option ε → Prop) : Prop :=
  ∀ sched s, run w city start sched = some s →
    sched.length ≤ 4 * w.length + 2 ∧
    (s.result = none → ∃ a s', step w city s a = some s') ∧
    (∀ r, s.result = some r → P r)

/-- Whether goroutine `j` has sent its outcome and exited. -/
def State.exited (s : State ε) (j : Nat) : Bool :=
  match s.tasks[j]? with
  | some { p := _, pc := TaskPc.done } => true
  | _ => false

/-! ## The concrete providers and `location`

The HTTP client `http.Get` and the JSON decoder are library code. A provider
takes them as parameters: `get url` is the outcome of `http.Get(url)`, an
error or a response, and a decoder maps a response body to the error of
`Decode` or to the field of the decoded struct that the provider reads.
The `log.Printf` calls have no effect on the result and are left out. -/

/-- An HTTP response as far as the program could look at it: the status code and
the body. -/
structure Response (β : Type) where
  StatusCode : Nat
  Body : β

/-- The outcome of a Go function that can panic: it returns, or it panics. -/
inductive GoResult (α : Type) where
  | ret (a : α)
  | panic (msg : String)

/-- The struct `geometry`, with its fields `Geometry.Location.Longitude` and
`Geometry.Location.Latitude`. -/
structure geometry where
  Longitude : ℚ
  Latitude : ℚ

/-- The struct `googleResponse`. -/
structure googleResponse where
  Results : List geometry

/-- The struct `locationData`. -/
structure locationData where
  Longitude : ℚ
  Latitude : ℚ

/-- The function `location` (lines 77-95). Indexing `g.Results[0]` panics when
`Results` is empty. -/
def location {β : Type} (get : String → Except ε (Response β))
    (decodeGeo : β → Except ε googleResponse) (city : String) :
    GoResult (locationData × Option ε) :=
  match get ("https://maps.googleapis.com/maps/api/geocode/json?address=" ++ city) with
  | Except.error err => GoResult.ret ({ Longitude := 0, Latitude := 0 }, some err)
  | Except.ok resp =>
    match decodeGeo resp.Body with
    | Except.error err => GoResult.ret ({ Longitude := 0, Latitude := 0 }, some err)
    | Except.ok g =>
      match g.Results with
      | [] => GoResult.panic "runtime error: index out of range [0] with length 0"
      | r :: _ => GoResult.ret ({ Longitude := r.Longitude, Latitude := r.Latitude }, none)

/-- The type `openWeatherMap`. -/
structure openWeatherMap where

/-- The method `openWeatherMap.temperature` (lines 134-154); `decode` yields
`d.Main.Kelvin`. -/
def openWeatherMap.temperature {β : Type} (_w : openWeatherMap)
    (get : String → Except ε (Response β)) (decode : β → Except ε ℚ) (city : String) :
    ℚ × Option ε :=
  match get ("http://api.openweathermap.org/data/2.5/weather?q=" ++ city) with
  | Except.error err => (0, some err)
  | Except.ok resp =>
    match decode resp.Body with
    | Except.error err => (0, some err)
    | Except.ok kelvin => (kelvin, none)

/-- The type `weatherUnderground`. -/
structure weatherUnderground where
  apiKey : String

/-- The method `weatherUnderground.temperature` (lines 162-183); `decode` yields
`d.Observation.Celcsius`. -/
def weatherUnderground.temperature {β : Type} (w : weatherUnderground)
    (get : String → Except ε (Response β)) (decode : β → Except ε ℚ) (city : String) :
    ℚ × Option ε :=
  match get ("http://api.wunderground.com/api/" ++ w.apiKey ++ "/conditions/q/uk/" ++ city
      ++ ".json") with
  | Except.error err => (0, some err)
  | Except.ok resp =>
    match decode resp.Body with
    | Except.error err => (0, some err)
    | Except.ok celsius => (celsius + 273.15, none)

/-- The type `forecastio`. -/
structure forecastio where
  apiKey : String

/-- The method `forecastio.temperature` (lines 189-217); `formatFloat x` is
`strconv.FormatFloat(x, 'f', 6, 64)` and `decode` yields
`d.Observation.Fahrenheit`. A panic of `location` is not recovered. -/
def forecastio.temperature {β : Type} (w : forecastio)
    (get : String → Except ε (Response β)) (decodeGeo : β → Except ε googleResponse)
    (decode : β → Except ε ℚ) (formatFloat : ℚ → String) (city : String) :
    GoResult (ℚ × Option ε) :=
  match location get decodeGeo city with
  | GoResult.panic msg => GoResult.panic msg
  | GoResult.ret (_, some err) => GoResult.ret (0, some err)
  | GoResult.ret (loc, none) =>
    match get ("https://api.forecast.io/forecast/" ++ w.apiKey ++ "/" ++
        formatFloat loc.Latitude ++ "," ++ formatFloat loc.Longitude) with
    | Except.error err => GoResult.ret (0, some err)
    | Except.ok resp =>
      match decode resp.Body with
      | Except.error err => GoResult.ret (0, some err)
      | Except.ok fahrenheit => GoResult.ret ((fahrenheit - 32) * 5 / 9 + 273.15, none)

/-- Whether a status code is a 2xx code. -/
def Response.is2xx {β : Type} (r : Response β) : Bool :=
  200 ≤ r.StatusCode && r.StatusCode < 300

/-! ## Concrete scenarios -/

/-- Scenario A: three providers that return 300, 310 and 290. -/
def scenarioA : multiWeatherProvider String :=
  [fun _ => Call.ret 300 none, fun _ => Call.ret 310 none, fun _ => Call.ret 290 none]

/-- A schedule of scenario A in which the values arrive in the order 290, 300, 310. -/
def scheduleA : List Action :=
  [Action.launch, Action.launch, Action.call 1, Action.launch, Action.enterLoop,
   Action.call 0, Action.call 2, Action.publish 2, Action.publish 0, Action.recvTemp,
   Action.publish 1, Action.recvTemp, Action.recvTemp, Action.finish]

/-- Scenario B: three providers that return 300, the error "timeout", and 290. -/
def scenarioB : multiWeatherProvider String :=
  [fun _ => Call.ret 300 none, fun _ => Call.ret 0 (some "timeout"),
   fun _ => Call.ret 290 none]

/-- A schedule of scenario B: the value 300 is received first, then the error. -/
def scheduleB : List Action :=
  [Action.launch, Action.launch, Action.launch, Action.enterLoop, Action.call 0,
   Action.publish 0, Action.call 1, Action.call 2, Action.publish 2, Action.publish 1,
   Action.recvTemp, Action.recvErr]

/-- Two providers that fail with different errors. -/
def scenarioTwoErrors : multiWeatherProvider String :=
  [fun _ => Call.ret 0 (some "timeout"), fun _ => Call.ret 0 (some "refused")]

/-- A schedule of `scenarioTwoErrors` in which provider 0 sends first. -/
def scheduleFirst : List Action :=
  [Action.launch, Action.launch, Action.enterLoop, Action.call 0, Action.publish 0,
   Action.recvErr]

/-- A schedule of `scenarioTwoErrors` in which provider 1 sends first. -/
def scheduleSecond : List Action :=
  [Action.launch, Action.launch, Action.enterLoop, Action.call 1, Action.publish 1,
   Action.recvErr]

/-- One provider that succeeds and one that never returns. -/
def scenarioHang : multiWeatherProvider String :=
  [fun _ => Call.ret 300 none, fun _ => Call.hang]

/-- The state of scenario A once the three goroutines are launched and the fan-in loop
is entered: every goroutine is inside its call and both channels are empty. -/
def stateAllCalling : State String :=
  { main := MainPc.selecting 0 0,
    tasks := [{ p := fun _ => Call.ret 300 none, pc := TaskPc.calling },
              { p := fun _ => Call.ret 310 none, pc := TaskPc.calling },
              { p := fun _ => Call.ret 290 none, pc := TaskPc.calling }],
    temps := [], errs := [] }

/-- The state of `scenarioHang` after the value of provider 0 has been received: the
loop waits for a second outcome and goroutine 1 is inside a call that never returns. -/
def stateBlocked : State String :=
  { main := MainPc.selecting 1 300,
    tasks := [{ p := fun _ => Call.ret 300 none, pc := TaskPc.done },
              { p := fun _ => Call.hang, pc := TaskPc.calling }],
    temps := [], errs := [] }

/-- An HTTP exchange that succeeds at the transport level with status 404 and a
JSON body that has no temperature field. -/
def getNotFound : String → Except String (Response String) :=
  fun _ => Except.ok { StatusCode := 404, Body := "\x7b\"cod\":\"404\",\"message\":\"city not found\"\x7d" }

/-- What `Decode` does on a JSON object that lacks the field the provider reads:
the field keeps its zero value and the error is nil. -/
def decodeAbsentField : String → Except String ℚ :=
  fun _ => Except.ok 0

/-- A geocoding exchange that succeeds with status 200 and an empty `results` list. -/
def getZeroResults : String → Except String (Response String) :=
  fun _ => Except.ok { StatusCode := 200, Body := "\x7b\"results\":[],\"status\":\"ZERO_RESULTS\"\x7d" }

/-- What `Decode` yields on the body of `getZeroResults`: a `googleResponse` whose
`Results` is empty, and a nil error. -/
def decodeZeroResults : String → Except String googleResponse :=
  fun _ => Except.ok { Results := [] }

/-- An HTTP exchange that always succeeds with status 200. -/
def getOk : String → Except String (Response String) :=
  fun _ => Except.ok { StatusCode := 200, Body := "body" }

/-- A geocoding decoder that yields one result. -/
def decodeOneResult : String → Except String googleResponse :=
  fun _ => Except.ok { Results := [{ Longitude := 0, Latitude := 51 }] }

/-- An HTTP exchange that fails at the transport level. -/
def getRefused : String → Except String (Response String) :=
  fun _ => Except.error "connection refused"

/-! # Theorems -/

/-! ## Basic facts about `step` and `run` -/

theorem step_sound {w : multiWeatherProvider ε} {city : String} {s s' : State ε}
    {a : Action} (h : step w city s a = some s') : Step w city s a s' := by
  cases a with
  | launch =>
    simp only [step] at h
    split at h
    · rename_i i hm
      split at h
      · rename_i p hp
        cases h
        exact Step.launch s i p hm hp
      · cases h
    · cases h
  | enterLoop =>
    simp only [step] at h
    split at h
    · rename_i i hm
      split at h
      · rename_i hi
        cases h
        exact Step.enterLoop s i hm hi
      · cases h
    · cases h
  | recvTemp =>
    simp only [step] at h
    split at h
    · rename_i i sum temp rest hm ht
      split at h
      · rename_i hi
        cases h
        exact Step.recvTemp s i sum temp rest hm ht hi
      · cases h
    · cases h
  | recvErr =>
    simp only [step] at h
    split at h
    · rename_i i sum err rest hm he
      split at h
      · rename_i hi
        cases h
        exact Step.recvErr s i sum err rest hm he hi
      · cases h
    · cases h
  | finish =>
    simp only [step] at h
    split at h
    · rename_i i sum hm
      split at h
      · rename_i hi
        cases h
        exact Step.finish s i sum hm hi
      · cases h
    · cases h
  | call j =>
    simp only [step] at h
    split at h
    · rename_i p ht
      split at h
      · rename_i k err hc
        cases h
        exact Step.call s j p k err ht hc
      · cases h
    · cases h
  | publish j =>
    simp only [step] at h
    split at h
    · rename_i p k ht
      split at h
      · rename_i hcap
        cases h
        exact Step.publishTemp s j p k ht hcap
      · cases h
    · rename_i p k err ht
      split at h
      · rename_i hcap
        cases h
        exact Step.publishErr s j p k err ht hcap
      · cases h
    · cases h

theorem step_complete {w : multiWeatherProvider ε} {city : String} {s s' : State ε}
    {a : Action} (h : Step w city s a s') : step w city s a = some s' := by
  cases h with
  | launch i p hm hp => simp [step, hm, hp]
  | enterLoop i hm hi => simp [step, hm, hi]
  | recvTemp i sum temp rest hm ht hi => simp [step, hm, ht, hi]
  | recvErr i sum err rest hm he hi => simp [step, hm, he, hi]
  | finish i sum hm hi => simp [step, hm, hi]
  | call j p k err ht hc => simp [step, ht, hc]
  | publishTemp j p k ht hcap => simp [step, ht, hcap]
  | publishErr j p k err ht hcap => simp [step, ht, hcap]

theorem step_eq_some_iff {w : multiWeatherProvider ε} {city : String} {s s' : State ε}
    {a : Action} : step w city s a = some s' ↔ Step w city s a s' :=
  ⟨step_sound, step_complete⟩

theorem run_snoc (w : multiWeatherProvider ε) (city : String) (sched : List Action)
    (a : Action) (s : State ε) :
    run w city s (sched ++ [a]) = (run w city s sched).bind (fun s' => step w city s' a) := by
  induction sched generalizing s with
  | nil =>
    simp only [List.nil_append, run, Option.some_bind]
    cases step w city s a <;> rfl
  | cons b rest ih =>
    simp only [List.cons_append, run]
    cases step w city s b with
    | none => rfl
    | some s' => exact ih s'

/-- Induction over the executions from `start`: a property of (schedule, state) that
holds initially and is kept by every enabled action holds of every execution. -/
theorem run_induction {w : multiWeatherProvider ε} {city : String}
    (P : List Action → State ε → Prop) (h0 : P [] start)
    (hstep : ∀ sched s a s', run w city start sched = some s → P sched s →
      Step w city s a s' → P (sched ++ [a]) s') :
    ∀ sched s, run w city start sched = some s → P sched s := by
  intro sched
  induction sched using List.reverseRecOn with
  | nil =>
    intro s h
    simp only [run, Option.some.injEq] at h
    exact h ▸ h0
  | append_singleton sched a ih =>
    intro s h
    rw [run_snoc] at h
    cases hr : run w city start sched with
    | none => rw [hr] at h; cases h
    | some s0 =>
      rw [hr] at h
      exact hstep sched s0 a s hr (ih s0 hr) (step_sound h)

/-! ## Sums over the goroutine list -/

theorem sum_map_set {α M : Type} [AddCommMonoid M] (f : α → M) (l : List α) (j : Nat)
    (a b : α) (h : l[j]? = some a) :
    ((l.set j b).map f).sum + f a = (l.map f).sum + f b := by
  induction l generalizing j with
  | nil => simp at h
  | cons x xs ih =>
    cases j with
    | zero =>
      simp only [List.getElem?_cons_zero, Option.some.injEq] at h
      subst h
      simp only [List.set_cons_zero, List.map_cons, List.sum_cons]
      abel
    | succ j =>
      simp only [List.getElem?_cons_succ] at h
      simp only [List.set_cons_succ, List.map_cons, List.sum_cons]
      rw [add_assoc, ih j h, add_assoc]

theorem map_set_same {α β : Type} (f : α → β) (l : List α) (j : Nat) (a b : α)
    (h : l[j]? = some a) (hf : f b = f a) : (l.set j b).map f = l.map f := by
  induction l generalizing j with
  | nil => simp
  | cons x xs ih =>
    cases j with
    | zero =>
      simp only [List.getElem?_cons_zero, Option.some.injEq] at h
      subst h
      simp [hf]
    | succ j =>
      simp only [List.getElem?_cons_succ] at h
      simp [ih j h]

theorem mem_of_getElem?_eq {α : Type} (l : List α) (j : Nat) (a : α)
    (h : l[j]? = some a) : a ∈ l := by
  induction l generalizing j with
  | nil => simp at h
  | cons x xs ih =>
    cases j with
    | zero =>
      simp only [List.getElem?_cons_zero, Option.some.injEq] at h
      simp [h]
    | succ j =>
      simp only [List.getElem?_cons_succ] at h
      exact List.mem_cons_of_mem _ (ih j h)

theorem exists_getElem?_of_mem {α : Type} (l : List α) (a : α) (h : a ∈ l) :
    ∃ j : Nat, l[j]? = some a := by
  induction l with
  | nil => simp at h
  | cons x xs ih =>
    rcases List.mem_cons.mp h with h | h
    · refine ⟨0, ?_⟩
      simp [h]
    · obtain ⟨j, hj⟩ := ih h
      refine ⟨j + 1, ?_⟩
      simpa using hj

theorem mem_set_cases {α : Type} (l : List α) (j : Nat) (b x : α)
    (h : x ∈ l.set j b) : x ∈ l ∨ x = b := by
  induction l generalizing j with
  | nil => simp at h
  | cons y ys ih =>
    cases j with
    | zero =>
      simp only [List.set_cons_zero, List.mem_cons] at h
      rcases h with h | h
      · exact Or.inr h
      · exact Or.inl (List.mem_cons_of_mem _ h)
    | succ j =>
      simp only [List.set_cons_succ, List.mem_cons] at h
      rcases h with h | h
      · exact Or.inl (by simp [h])
      · rcases ih j h with h | h
        · exact Or.inl (List.mem_cons_of_mem _ h)
        · exact Or.inr h

theorem sum_map_le_length {α : Type} (f : α → Nat) (hf : ∀ a, f a ≤ 1) (l : List α) :
    (l.map f).sum ≤ l.length := by
  induction l with
  | nil => simp
  | cons x xs ih =>
    simp only [List.map_cons, List.sum_cons, List.length_cons]
    have := hf x
    omega

theorem eq_one_of_sum_map_eq_length {α : Type} (f : α → Nat) (hf : ∀ a, f a ≤ 1)
    (l : List α) (h : (l.map f).sum = l.length) : ∀ a ∈ l, f a = 1 := by
  induction l with
  | nil => simp
  | cons x xs ih =>
    simp only [List.map_cons, List.sum_cons, List.length_cons] at h
    have h1 := hf x
    have h2 := sum_map_le_length f hf xs
    intro a ha
    rcases List.mem_cons.mp ha with ha | ha
    · subst ha; omega
    · exact ih (by omega) a ha

theorem sum_map_eq_length_of_eq_one {α : Type} (f : α → Nat) (l : List α)
    (h : ∀ a ∈ l, f a = 1) : (l.map f).sum = l.length := by
  induction l with
  | nil => simp
  | cons x xs ih =>
    simp only [List.map_cons, List.sum_cons, List.length_cons]
    rw [h x (by simp), ih (fun a ha => h a (List.mem_cons_of_mem _ ha))]
    omega

theorem okDone_add_errDone_le (city : String) (t : Task ε) :
    okDone city t + errDone city t ≤ 1 := by
  unfold okDone errDone
  split <;> split <;> simp_all

theorem okDone_le (city : String) (t : Task ε) : okDone city t ≤ 1 := by
  have := okDone_add_errDone_le city t
  omega

theorem okDone_eq_one (city : String) (t : Task ε) (h : okDone city t = 1) :
    t.pc = TaskPc.done ∧ ∃ k, t.p city = Call.ret k none ∧ valDone city t = k ∧
      okVal city t.p = k := by
  unfold okDone at h
  unfold valDone okVal
  cases hpc : t.pc <;> cases hc : t.p city <;> simp [hpc, hc] at h ⊢
  rename_i k err
  cases err <;> simp at h ⊢

theorem sum_okDone_add_sum_errDone_le (city : String) (l : List (Task ε)) :
    (l.map (okDone city)).sum + (l.map (errDone city)).sum ≤ l.length := by
  induction l with
  | nil => simp
  | cons x xs ih =>
    simp only [List.map_cons, List.sum_cons, List.length_cons]
    have := okDone_add_errDone_le city x
    omega

/-! ## The invariant holds in every reachable state -/

theorem inv_start (w : multiWeatherProvider ε) (city : String) : Inv w city (start : State ε) := by
  refine ⟨?_, ?_, ?_, ?_, ?_, ?_, ?_, ?_⟩
  · simp [start]
  · intro i h
    simp only [start, MainPc.launching.injEq] at h
    simp [start, h]
  · intro h
    exact absurd rfl (h 0)
  · intro t ht
    simp [start] at ht
  · intro i _
    simp [start]
  · intro i sum h
    simp [start] at h
  · intro v err h
    simp [start] at h
  · intro e he
    simp [start] at he

theorem inv_step {w : multiWeatherProvider ε} {city : String} {s s' : State ε} {a : Action}
    (hinv : Inv w city s) (h : Step w city s a s') : Inv w city s' := by
  cases h with
  | launch i p hm hp =>
    have hlen := hinv.launching i hm
    obtain ⟨h1, h2, h3⟩ := hinv.beforeLoop i hm
    refine ⟨?_, ?_, ?_, ?_, ?_, ?_, ?_, ?_⟩
    · simp only [List.map_append, List.map_cons, List.map_nil, List.length_append,
        List.length_singleton]
      rw [hinv.providers, hlen, List.take_succ, hp]
      rfl
    · intro i' h
      simp only [MainPc.launching.injEq] at h
      simp only [List.length_append, List.length_singleton]
      omega
    · intro h
      exact absurd rfl (h (i + 1))
    · intro t ht
      simp only [List.mem_append, List.mem_singleton] at ht
      rcases ht with ht | ht
      · exact hinv.pcs t ht
      · subst ht
        simp
    · intro i' _
      simp only [List.map_append, List.map_cons, List.map_nil, List.sum_append, List.sum_cons,
        List.sum_nil]
      simp [okDone, valDone, errDone, h1, h2, h3]
    · intro i' sum h
      cases h
    · intro v err h
      cases h
    · exact hinv.errsMem
  | enterLoop i hm hi =>
    have hlen := hinv.launching i hm
    obtain ⟨h1, h2, h3⟩ := hinv.beforeLoop i hm
    have hle : s.tasks.length ≤ w.length := by
      have := congrArg List.length hinv.providers
      simp only [List.length_map, List.length_take] at this
      omega
    refine ⟨hinv.providers, ?_, ?_, hinv.pcs, ?_, ?_, ?_, hinv.errsMem⟩
    · intro i' h
      cases h
    · intro _
      show s.tasks.length = w.length
      omega
    · intro i' h
      cases h
    · intro i' sum h
      simp only [MainPc.selecting.injEq] at h
      obtain ⟨rfl, rfl⟩ := h
      exact ⟨by simpa using h1, by simpa using h2, h3⟩
    · intro v err h
      cases h
  | recvTemp i sum temp rest hm ht hi =>
    obtain ⟨h1, h2, h3⟩ := hinv.inLoop i sum hm
    have hl := hinv.launched (by intro i' h'; rw [hm] at h'; cases h')
    refine ⟨hinv.providers, ?_, ?_, hinv.pcs, ?_, ?_, ?_, hinv.errsMem⟩
    · intro i' h
      cases h
    · intro _
      exact hl
    · intro i' h
      cases h
    · intro i' sum' h
      simp only [MainPc.selecting.injEq] at h
      obtain ⟨rfl, rfl⟩ := h
      rw [ht] at h1 h2
      simp only [List.length_cons, List.sum_cons] at h1 h2
      refine ⟨by dsimp only; omega, ?_, h3⟩
      show sum + temp + rest.sum = _
      rw [← h2]
      ring
    · intro v err h
      cases h
  | recvErr i sum err rest hm he hi =>
    obtain ⟨h1, h2, h3⟩ := hinv.inLoop i sum hm
    have hl := hinv.launched (by intro i' h'; rw [hm] at h'; cases h')
    refine ⟨hinv.providers, ?_, ?_, hinv.pcs, ?_, ?_, ?_, ?_⟩
    · intro i' h
      cases h
    · intro _
      exact hl
    · intro i' h
      cases h
    · intro i' sum' h
      cases h
    · intro v err' h
      simp only [MainPc.returned.injEq] at h
      obtain ⟨rfl, rfl⟩ := h
      rw [he] at h3
      simp only [List.length_cons] at h3
      refine ⟨by dsimp only; omega, by dsimp only; omega, Or.inr ?_⟩
      exact ⟨err, rfl, rfl, hinv.errsMem err (by rw [he]; simp)⟩
    · intro e hmem
      exact hinv.errsMem e (by rw [he]; exact List.mem_cons_of_mem _ hmem)
  | finish i sum hm hi =>
    obtain ⟨h1, h2, h3⟩ := hinv.inLoop i sum hm
    have hl := hinv.launched (by intro i' h'; rw [hm] at h'; cases h')
    have hle := sum_map_le_length (okDone city) (okDone_le city) s.tasks
    have hfull : (s.tasks.map (okDone city)).sum = s.tasks.length := by omega
    have hall := eq_one_of_sum_map_eq_length (okDone city) (okDone_le city) s.tasks hfull
    have htemps : s.temps = [] := by
      apply List.eq_nil_of_length_eq_zero
      omega
    have hprov : s.tasks.map Task.p = w := by
      rw [hinv.providers, hl, List.take_length]
    have hvals : (s.tasks.map (valDone city)).sum = (w.map (okVal city)).sum := by
      rw [← hprov, List.map_map]
      congr 1
      apply List.map_congr_left
      intro t ht
      obtain ⟨_, k, _, hv, ho⟩ := okDone_eq_one city t (hall t ht)
      simp [hv, ho]
    refine ⟨hinv.providers, ?_, ?_, hinv.pcs, ?_, ?_, ?_, hinv.errsMem⟩
    · intro i' h
      cases h
    · intro _
      exact hl
    · intro i' h
      cases h
    · intro i' sum' h
      cases h
    · intro v err h
      simp only [MainPc.returned.injEq] at h
      obtain ⟨rfl, rfl⟩ := h
      refine ⟨by dsimp only; omega, by dsimp only; omega, Or.inl ?_⟩
      refine ⟨rfl, ?_, ?_⟩
      · intro p hp
        rw [← hprov] at hp
        obtain ⟨t, ht, rfl⟩ := List.mem_map.mp hp
        obtain ⟨_, k, hk, _, _⟩ := okDone_eq_one city t (hall t ht)
        exact ⟨k, hk⟩
      · rw [htemps] at h2
        simp only [List.sum_nil, add_zero] at h2
        rw [← hvals, ← h2]
  | call j p k err ht hc =>
    have e1 := sum_map_set (okDone city) s.tasks j _ { p := p, pc := TaskPc.returned k err } ht
    have e2 := sum_map_set (valDone city) s.tasks j _ { p := p, pc := TaskPc.returned k err } ht
    have e3 := sum_map_set (errDone city) s.tasks j _ { p := p, pc := TaskPc.returned k err } ht
    simp only [okDone, valDone, errDone, add_zero] at e1 e2 e3
    refine ⟨?_, ?_, ?_, ?_, ?_, ?_, ?_, hinv.errsMem⟩
    · simp only [List.length_set]
      exact (map_set_same Task.p s.tasks j _ { p := p, pc := TaskPc.returned k err } ht rfl).trans hinv.providers
    · intro i h
      simp only [List.length_set]
      exact hinv.launching i h
    · intro h
      simp only [List.length_set]
      exact hinv.launched h
    · intro t hmem
      rcases mem_set_cases _ _ _ _ hmem with hmem | rfl
      · exact hinv.pcs t hmem
      · refine ⟨?_, ?_⟩
        · intro k' err' h
          simp only [TaskPc.returned.injEq] at h
          obtain ⟨rfl, rfl⟩ := h
          exact hc
        · intro h
          cases h
    · intro i h
      show _ = (List.map (okDone city) (s.tasks.set j _)).sum ∧
        _ = (List.map (valDone city) (s.tasks.set j _)).sum ∧
        _ = (List.map (errDone city) (s.tasks.set j _)).sum
      rw [e1, e2, e3]
      exact hinv.beforeLoop i h
    · intro i sum h
      show _ = (List.map (okDone city) (s.tasks.set j _)).sum ∧
        _ = (List.map (valDone city) (s.tasks.set j _)).sum ∧
        _ = (List.map (errDone city) (s.tasks.set j _)).sum
      rw [e1, e2, e3]
      exact hinv.inLoop i sum h
    · intro v err' h
      show _ ≤ (List.map (okDone city) (s.tasks.set j _)).sum ∧
        _ ≤ (List.map (errDone city) (s.tasks.set j _)).sum ∧ _
      rw [e1, e3]
      exact hinv.afterLoop v err' h
  | publishTemp j p k ht hcap =>
    have hc := (hinv.pcs _ (mem_of_getElem?_eq _ _ _ ht)).1 k none rfl
    simp only at hc
    have e1 := sum_map_set (okDone city) s.tasks j _ { p := p, pc := TaskPc.done } ht
    have e2 := sum_map_set (valDone city) s.tasks j _ { p := p, pc := TaskPc.done } ht
    have e3 := sum_map_set (errDone city) s.tasks j _ { p := p, pc := TaskPc.done } ht
    simp only [okDone, valDone, errDone, add_zero, hc] at e1 e2 e3
    refine ⟨?_, ?_, ?_, ?_, ?_, ?_, ?_, hinv.errsMem⟩
    · simp only [List.length_set]
      exact (map_set_same Task.p s.tasks j _ { p := p, pc := TaskPc.done } ht rfl).trans hinv.providers
    · intro i h
      simp only [List.length_set]
      exact hinv.launching i h
    · intro h
      simp only [List.length_set]
      exact hinv.launched h
    · intro t hmem
      rcases mem_set_cases _ _ _ _ hmem with hmem | rfl
      · exact hinv.pcs t hmem
      · refine ⟨?_, ?_⟩
        · intro k' err' h
          cases h
        · intro _
          exact ⟨k, none, hc⟩
    · intro i h
      obtain ⟨h1, h2, h3⟩ := hinv.beforeLoop i h
      show (s.temps ++ [k]).length = (List.map (okDone city) (s.tasks.set j _)).sum ∧
        (s.temps ++ [k]).sum = (List.map (valDone city) (s.tasks.set j _)).sum ∧
        _ = (List.map (errDone city) (s.tasks.set j _)).sum
      rw [e1, e2, e3]
      simp only [List.length_append, List.length_singleton, List.sum_append, List.sum_cons,
        List.sum_nil, add_zero]
      exact ⟨by omega, by rw [h2], h3⟩
    · intro i sum h
      obtain ⟨h1, h2, h3⟩ := hinv.inLoop i sum h
      show i + (s.temps ++ [k]).length = (List.map (okDone city) (s.tasks.set j _)).sum ∧
        sum + (s.temps ++ [k]).sum = (List.map (valDone city) (s.tasks.set j _)).sum ∧
        _ = (List.map (errDone city) (s.tasks.set j _)).sum
      rw [e1, e2, e3]
      simp only [List.length_append, List.length_singleton, List.sum_append, List.sum_cons,
        List.sum_nil, add_zero]
      exact ⟨by omega, by rw [← h2]; ring, h3⟩
    · intro v err' h
      obtain ⟨h1, h2, h3⟩ := hinv.afterLoop v err' h
      show (s.temps ++ [k]).length ≤ (List.map (okDone city) (s.tasks.set j _)).sum ∧
        _ ≤ (List.map (errDone city) (s.tasks.set j _)).sum ∧ _
      rw [e1, e3]
      simp only [List.length_append, List.length_singleton]
      exact ⟨by omega, h2, h3⟩
  | publishErr j p k err ht hcap =>
    have hc := (hinv.pcs _ (mem_of_getElem?_eq _ _ _ ht)).1 k (some err) rfl
    simp only at hc
    have e1 := sum_map_set (okDone city) s.tasks j _ { p := p, pc := TaskPc.done } ht
    have e2 := sum_map_set (valDone city) s.tasks j _ { p := p, pc := TaskPc.done } ht
    have e3 := sum_map_set (errDone city) s.tasks j _ { p := p, pc := TaskPc.done } ht
    simp only [okDone, valDone, errDone, add_zero, hc] at e1 e2 e3
    refine ⟨?_, ?_, ?_, ?_, ?_, ?_, ?_, ?_⟩
    · simp only [List.length_set]
      exact (map_set_same Task.p s.tasks j _ { p := p, pc := TaskPc.done } ht rfl).trans hinv.providers
    · intro i h
      simp only [List.length_set]
      exact hinv.launching i h
    · intro h
      simp only [List.length_set]
      exact hinv.launched h
    · intro t hmem
      rcases mem_set_cases _ _ _ _ hmem with hmem | rfl
      · exact hinv.pcs t hmem
      · refine ⟨?_, ?_⟩
        · intro k' err' h
          cases h
        · intro _
          exact ⟨k, some err, hc⟩
    · intro i h
      obtain ⟨h1, h2, h3⟩ := hinv.beforeLoop i h
      show _ = (List.map (okDone city) (s.tasks.set j _)).sum ∧
        _ = (List.map (valDone city) (s.tasks.set j _)).sum ∧
        (s.errs ++ [err]).length = (List.map (errDone city) (s.tasks.set j _)).sum
      rw [e1, e2, e3]
      simp only [List.length_append, List.length_singleton]
      exact ⟨h1, h2, by omega⟩
    · intro i sum h
      obtain ⟨h1, h2, h3⟩ := hinv.inLoop i sum h
      show _ = (List.map (okDone city) (s.tasks.set j _)).sum ∧
        _ = (List.map (valDone city) (s.tasks.set j _)).sum ∧
        (s.errs ++ [err]).length = (List.map (errDone city) (s.tasks.set j _)).sum
      rw [e1, e2, e3]
      simp only [List.length_append, List.length_singleton]
      exact ⟨h1, h2, by omega⟩
    · intro v err' h
      obtain ⟨h1, h2, h3⟩ := hinv.afterLoop v err' h
      show _ ≤ (List.map (okDone city) (s.tasks.set j _)).sum ∧
        (s.errs ++ [err]).length ≤ (List.map (errDone city) (s.tasks.set j _)).sum ∧ _
      rw [e1, e3]
      simp only [List.length_append, List.length_singleton]
      exact ⟨h1, by omega, h3⟩
    · intro e hmem
      simp only [List.mem_append, List.mem_singleton] at hmem
      rcases hmem with hmem | rfl
      · exact hinv.errsMem e hmem
      · have hpw : p ∈ w := by
          have : p ∈ s.tasks.map Task.p :=
            List.mem_map.mpr ⟨_, mem_of_getElem?_eq _ _ _ ht, rfl⟩
          rw [hinv.providers] at this
          exact List.mem_of_mem_take this
        exact ⟨p, hpw, k, hc⟩

theorem inv_run {w : multiWeatherProvider ε} {city : String} (sched : List Action)
    (s : State ε) (h : run w city start sched = some s) : Inv w city s :=
  run_induction (fun _ s => Inv w city s) (inv_start w city)
    (fun _ _ _ _ _ hi hs => inv_step hi hs) sched s h

/-! ## Consequences of the invariant: channel capacity -/

theorem Inv.tasks_le {w : multiWeatherProvider ε} {city : String} {s : State ε}
    (hinv : Inv w city s) : s.tasks.length ≤ w.length := by
  have := congrArg List.length hinv.providers
  simp only [List.length_map, List.length_take] at this
  omega

theorem Inv.chan_le {w : multiWeatherProvider ε} {city : String} {s : State ε}
    (hinv : Inv w city s) :
    s.temps.length ≤ (s.tasks.map (okDone city)).sum ∧
    s.errs.length ≤ (s.tasks.map (errDone city)).sum := by
  cases hm : s.main with
  | launching i =>
    obtain ⟨h1, _, h3⟩ := hinv.beforeLoop i hm
    omega
  | selecting i sum =>
    obtain ⟨h1, _, h3⟩ := hinv.inLoop i sum hm
    omega
  | returned v err =>
    obtain ⟨h1, h3, _⟩ := hinv.afterLoop v err hm
    omega

theorem sum_done_lt_length (city : String) (l : List (Task ε)) (t : Task ε) (ht : t ∈ l)
    (hpc : t.pc ≠ TaskPc.done) :
    (l.map (okDone city)).sum + (l.map (errDone city)).sum < l.length := by
  induction l with
  | nil => simp at ht
  | cons x xs ih =>
    simp only [List.map_cons, List.sum_cons, List.length_cons]
    rcases List.mem_cons.mp ht with h | h
    · subst h
      have h0 : okDone city t = 0 ∧ errDone city t = 0 := by
        unfold okDone errDone
        cases hp : t.pc <;> simp_all
      have := sum_okDone_add_sum_errDone_le city xs
      omega
    · have := ih h
      have := okDone_add_errDone_le city x
      omega

theorem sum_done_eq_length (city : String) (l : List (Task ε))
    (h : ∀ t ∈ l, okDone city t + errDone city t = 1) :
    (l.map (okDone city)).sum + (l.map (errDone city)).sum = l.length := by
  induction l with
  | nil => simp
  | cons x xs ih =>
    simp only [List.map_cons, List.sum_cons, List.length_cons]
    have := h x (by simp)
    have := ih (fun t ht => h t (List.mem_cons_of_mem _ ht))
    omega

theorem done_counts (city : String) (t : Task ε) (hpc : t.pc = TaskPc.done)
    (hret : ∃ k err, t.p city = Call.ret k err) : okDone city t + errDone city t = 1 := by
  obtain ⟨k, err, hc⟩ := hret
  unfold okDone errDone
  cases err <;> simp [hpc, hc]

/-- Both channels hold fewer than `len(w)` items while some goroutine has not exited. -/
theorem Inv.room {w : multiWeatherProvider ε} {city : String} {s : State ε}
    (hinv : Inv w city s) (t : Task ε) (ht : t ∈ s.tasks) (hpc : t.pc ≠ TaskPc.done) :
    s.temps.length < w.length ∧ s.errs.length < w.length := by
  have h1 := hinv.chan_le
  have h2 := sum_done_lt_length city s.tasks t ht hpc
  have h3 := hinv.tasks_le
  omega

theorem Inv.chan_le_cap {w : multiWeatherProvider ε} {city : String} {s : State ε}
    (hinv : Inv w city s) : s.temps.length ≤ w.length ∧ s.errs.length ≤ w.length := by
  have h1 := hinv.chan_le
  have h2 := sum_okDone_add_sum_errDone_le city s.tasks
  have h3 := hinv.tasks_le
  omega

/-! ## Progress -/

/-- A goroutine that has not exited has an enabled action, as long as its call can return. -/
theorem task_enabled {w : multiWeatherProvider ε} {city : String} {s : State ε}
    (hinv : Inv w city s) (t : Task ε) (ht : t ∈ s.tasks) (hpc : t.pc ≠ TaskPc.done)
    (hcan : t.pc = TaskPc.calling → ∃ k err, t.p city = Call.ret k err) :
    ∃ a s', step w city s a = some s' := by
  obtain ⟨j, hj⟩ := exists_getElem?_of_mem s.tasks t ht
  obtain ⟨hroomT, hroomE⟩ := hinv.room t ht hpc
  obtain ⟨p, pc⟩ := t
  cases pc with
  | calling =>
    obtain ⟨k, err, hc⟩ := hcan rfl
    exact ⟨Action.call j, _, step_complete (Step.call s j p k err hj hc)⟩
  | returned k err =>
    cases err with
    | none => exact ⟨Action.publish j, _, step_complete (Step.publishTemp s j p k hj hroomT)⟩
    | some e => exact ⟨Action.publish j, _, step_complete (Step.publishErr s j p k e hj hroomE)⟩
  | done => exact absurd rfl hpc

/-- In a state that satisfies the invariant and is not terminal, some action is
enabled, provided every call still running can return. -/
theorem progress {w : multiWeatherProvider ε} {city : String} {s : State ε}
    (hinv : Inv w city s) (hnt : ¬ s.terminal) (hcan : s.callsCanReturn city) :
    ∃ a s', step w city s a = some s' := by
  cases hm : s.main with
  | launching i =>
    by_cases hi : i < w.length
    · have hp : w[i]? = some w[i] := List.getElem?_eq_getElem hi
      exact ⟨Action.launch, _, step_complete (Step.launch s i _ hm hp)⟩
    · exact ⟨Action.enterLoop, _, step_complete (Step.enterLoop s i hm (by omega))⟩
  | selecting i sum =>
    by_cases hi : i < w.length
    · cases htemps : s.temps with
      | cons temp rest =>
        exact ⟨Action.recvTemp, _, step_complete (Step.recvTemp s i sum temp rest hm htemps hi)⟩
      | nil =>
        cases herrs : s.errs with
        | cons err rest =>
          exact ⟨Action.recvErr, _, step_complete (Step.recvErr s i sum err rest hm herrs hi)⟩
        | nil =>
          obtain ⟨h1, _, h3⟩ := hinv.inLoop i sum hm
          have hl := hinv.launched (by intro i' h'; rw [hm] at h'; cases h')
          rw [htemps] at h1
          rw [herrs] at h3
          simp only [List.length_nil, add_zero] at h1 h3
          have hex : ∃ t ∈ s.tasks, t.pc ≠ TaskPc.done := by
            by_contra hcon
            push_neg at hcon
            have := sum_done_eq_length city s.tasks
              (fun t ht => done_counts city t (hcon t ht) ((hinv.pcs t ht).2 (hcon t ht)))
            omega
          obtain ⟨t, ht, hpc⟩ := hex
          exact task_enabled hinv t ht hpc (hcan t ht)
    · exact ⟨Action.finish, _, step_complete (Step.finish s i sum hm (by omega))⟩
  | returned v err =>
    have hex : ∃ t ∈ s.tasks, t.pc ≠ TaskPc.done := by
      by_contra hcon
      push_neg at hcon
      exact hnt ⟨⟨v, err, hm⟩, hcon⟩
    obtain ⟨t, ht, hpc⟩ := hex
    exact task_enabled hinv t ht hpc (hcan t ht)

/-! ## Termination: every enabled action consumes fuel -/

theorem step_fuel {w : multiWeatherProvider ε} {city : String} {s s' : State ε} {a : Action}
    (h : Step w city s a s') : s'.fuel w.length < s.fuel w.length := by
  cases h with
  | launch i p hm hp =>
    have hi : i < w.length := by
      by_contra hcon
      rw [List.getElem?_eq_none (by omega)] at hp
      cases hp
    simp only [State.fuel, hm, MainPc.fuel, List.map_append, List.sum_append, List.map_cons,
      List.map_nil, List.sum_cons, List.sum_nil, TaskPc.fuel]
    omega
  | enterLoop i hm hi =>
    simp only [State.fuel, hm, MainPc.fuel]
    omega
  | recvTemp i sum temp rest hm ht hi =>
    simp only [State.fuel, hm, MainPc.fuel]
    omega
  | recvErr i sum err rest hm he hi =>
    simp only [State.fuel, hm, MainPc.fuel]
    omega
  | finish i sum hm hi =>
    simp only [State.fuel, hm, MainPc.fuel]
    omega
  | call j p k err ht hc =>
    have e : ((s.tasks.set j { p := p, pc := TaskPc.returned k err }).map
        (fun t : Task ε => t.pc.fuel)).sum + 2 =
        (s.tasks.map (fun t : Task ε => t.pc.fuel)).sum + 1 :=
      sum_map_set (fun t : Task ε => t.pc.fuel) s.tasks j _ _ ht
    simp only [State.fuel]
    omega
  | publishTemp j p k ht hcap =>
    have e : ((s.tasks.set j { p := p, pc := TaskPc.done }).map
        (fun t : Task ε => t.pc.fuel)).sum + 1 =
        (s.tasks.map (fun t : Task ε => t.pc.fuel)).sum + 0 :=
      sum_map_set (fun t : Task ε => t.pc.fuel) s.tasks j _ _ ht
    simp only [State.fuel]
    omega
  | publishErr j p k err ht hcap =>
    have e : ((s.tasks.set j { p := p, pc := TaskPc.done }).map
        (fun t : Task ε => t.pc.fuel)).sum + 1 =
        (s.tasks.map (fun t : Task ε => t.pc.fuel)).sum + 0 :=
      sum_map_set (fun t : Task ε => t.pc.fuel) s.tasks j _ _ ht
    simp only [State.fuel]
    omega

theorem run_fuel {w : multiWeatherProvider ε} {city : String} (sched : List Action)
    (s s' : State ε) (h : run w city s sched = some s') :
    s'.fuel w.length + sched.length ≤ s.fuel w.length := by
  induction sched generalizing s with
  | nil =>
    simp only [run, Option.some.injEq] at h
    subst h
    simp
  | cons a rest ih =>
    simp only [run] at h
    cases hs : step w city s a with
    | none => rw [hs] at h; cases h
    | some s1 =>
      rw [hs] at h
      have h1 := ih s1 h
      have h2 := step_fuel (step_sound hs)
      simp only [List.length_cons]
      omega

/-- No execution from `start` is longer than `4 * len(w) + 2` actions. -/
theorem run_length_le {w : multiWeatherProvider ε} {city : String} (sched : List Action)
    (s : State ε) (h : run w city start sched = some s) :
    sched.length ≤ 4 * w.length + 2 := by
  have := run_fuel sched start s h
  simp only [State.fuel, start, MainPc.fuel, List.map_nil, List.sum_nil] at this
  omega

/-! ## Facts about schedules: what was sent, received and launched -/

theorem Inv.task_mem {w : multiWeatherProvider ε} {city : String} {s : State ε}
    (hinv : Inv w city s) (t : Task ε) (ht : t ∈ s.tasks) : t.p ∈ w := by
  have : t.p ∈ s.tasks.map Task.p := List.mem_map.mpr ⟨t, ht, rfl⟩
  rw [hinv.providers] at this
  exact List.mem_of_mem_take this

theorem errsLog_snoc (w : multiWeatherProvider ε) (city : String) (sched : List Action)
    (a : Action) (s s1 s2 : State ε) (h : run w city s sched = some s1)
    (ha : step w city s1 a = some s2) :
    errsLog w city s (sched ++ [a]) = errsLog w city s sched ++ (sends s1 a).toList := by
  induction sched generalizing s with
  | nil =>
    simp only [run, Option.some.injEq] at h
    subst h
    simp [errsLog, ha]
  | cons b rest ih =>
    simp only [run] at h
    cases hb : step w city s b with
    | none => rw [hb] at h; cases h
    | some s' =>
      rw [hb] at h
      rw [List.cons_append]
      simp only [errsLog, hb]
      rw [ih s' h, List.append_assoc]

/-- While the call has not returned, the channel `errs` holds exactly the errors
sent so far; once it has returned an error, that error is the first one sent. -/
theorem errs_eq_log {w : multiWeatherProvider ε} {city : String} (sched : List Action)
    (s : State ε) (h : run w city start sched = some s) :
    (s.result = none → s.errs = errsLog w city start sched) ∧
    (∀ v e, s.main = MainPc.returned v (some e) →
      (errsLog w city start sched).head? = some e) := by
  refine run_induction
    (fun sched s => (s.result = none → s.errs = errsLog w city start sched) ∧
      (∀ v e, s.main = MainPc.returned v (some e) →
        (errsLog w city start sched).head? = some e)) ?_ ?_ sched s h
  · refine ⟨fun _ => rfl, ?_⟩
    intro v e hm
    cases hm
  · intro sched s a s' hrun ih hstep
    have hlog := errsLog_snoc w city sched a start s s' hrun (step_complete hstep)
    obtain ⟨ih1, ih2⟩ := ih
    cases hstep with
    | launch i p hm hp =>
      have hres : s.result = none := by simp [State.result, hm]
      refine ⟨fun _ => ?_, fun v e hm' => (by cases hm')⟩
      rw [hlog]
      simpa [sends] using ih1 hres
    | enterLoop i hm hi =>
      have hres : s.result = none := by simp [State.result, hm]
      refine ⟨fun _ => ?_, fun v e hm' => (by cases hm')⟩
      rw [hlog]
      simpa [sends] using ih1 hres
    | recvTemp i sum temp rest hm ht hi =>
      have hres : s.result = none := by simp [State.result, hm]
      refine ⟨fun _ => ?_, fun v e hm' => (by cases hm')⟩
      rw [hlog]
      simpa [sends] using ih1 hres
    | recvErr i sum err rest hm he hi =>
      have hres : s.result = none := by simp [State.result, hm]
      refine ⟨fun hr => (by simp [State.result] at hr), fun v e hm' => ?_⟩
      simp only [MainPc.returned.injEq, Option.some.injEq] at hm'
      obtain ⟨_, rfl⟩ := hm'
      rw [hlog, ← ih1 hres, he]
      simp [sends]
    | finish i sum hm hi =>
      refine ⟨fun hr => (by simp [State.result] at hr), fun v e hm' => ?_⟩
      simp at hm'
    | call j p k err ht hc =>
      rw [hlog]
      simp only [sends, List.append_nil, Option.toList]
      refine ⟨fun hr => ih1 (by simpa [State.result] using hr), fun v e hm' => ih2 v e hm'⟩
    | publishTemp j p k ht hcap =>
      rw [hlog]
      simp only [sends, ht, List.append_nil, Option.toList]
      refine ⟨fun hr => ih1 (by simpa [State.result] using hr), fun v e hm' => ih2 v e hm'⟩
    | publishErr j p k err ht hcap =>
      rw [hlog]
      simp only [sends, ht, Option.toList]
      refine ⟨fun hr => ?_, fun v e hm' => ?_⟩
      · have := ih1 (by simpa [State.result] using hr)
        simp [this]
      · have := ih2 v e hm'
        cases hl : errsLog w city start sched with
        | nil => rw [hl] at this; simp at this
        | cons x xs => rw [hl] at this; simpa using this

/-- The loop counter is the number of outcomes received, and it never exceeds `len(w)`. -/
theorem received_le {w : multiWeatherProvider ε} {city : String} (sched : List Action)
    (s : State ε) (h : run w city start sched = some s) :
    (∀ i, s.main = MainPc.launching i → received sched = 0) ∧
    (∀ i sum, s.main = MainPc.selecting i sum → received sched = i ∧ i ≤ w.length) ∧
    (∀ v err, s.main = MainPc.returned v err → received sched ≤ w.length) ∧
    (∀ v, s.main = MainPc.returned v none → received sched = w.length) := by
  refine run_induction
    (fun sched s => (∀ i, s.main = MainPc.launching i → received sched = 0) ∧
      (∀ i sum, s.main = MainPc.selecting i sum → received sched = i ∧ i ≤ w.length) ∧
      (∀ v err, s.main = MainPc.returned v err → received sched ≤ w.length) ∧
      (∀ v, s.main = MainPc.returned v none → received sched = w.length)) ?_ ?_ sched s h
  · refine ⟨fun _ _ => (by simp [received]), fun i sum hm => (by cases hm),
      fun v err hm => (by cases hm), fun v hm => (by cases hm)⟩
  · intro sched s a s' hrun ih hstep
    obtain ⟨ih1, ih2, ih3, ih4⟩ := ih
    cases hstep with
    | launch i p hm hp =>
      refine ⟨fun _ _ => ?_, fun i sum hm' => (by cases hm'), fun v err hm' => (by cases hm'),
        fun v hm' => (by cases hm')⟩
      have := ih1 i hm
      simpa [received] using this
    | enterLoop i hm hi =>
      refine ⟨fun _ hm' => (by cases hm'), fun i' sum hm' => ?_, fun v err hm' => (by cases hm'),
        fun v hm' => (by cases hm')⟩
      simp only [MainPc.selecting.injEq] at hm'
      obtain ⟨rfl, _⟩ := hm'
      have := ih1 i hm
      refine ⟨by simpa [received] using this, Nat.zero_le _⟩
    | recvTemp i sum temp rest hm ht hi =>
      refine ⟨fun _ hm' => (by cases hm'), fun i' sum' hm' => ?_, fun v err hm' => (by cases hm'),
        fun v hm' => (by cases hm')⟩
      simp only [MainPc.selecting.injEq] at hm'
      obtain ⟨rfl, _⟩ := hm'
      have := (ih2 i sum hm).1
      simp only [received, List.count_append] at this ⊢
      simp
      omega
    | recvErr i sum err rest hm he hi =>
      refine ⟨fun _ hm' => (by cases hm'), fun i' sum' hm' => (by cases hm'), fun v err' hm' => ?_,
        fun v hm' => (by simp at hm')⟩
      have := (ih2 i sum hm).1
      simp only [received, List.count_append] at this ⊢
      simp
      omega
    | finish i sum hm hi =>
      have := ih2 i sum hm
      have hrec : received (sched ++ [Action.finish]) = received sched := by
        simp [received, List.count_append]
      refine ⟨fun _ hm' => (by cases hm'), fun i' sum' hm' => (by cases hm'), fun v err' hm' => ?_,
        fun v hm' => ?_⟩
      · rw [hrec]; omega
      · rw [hrec]; omega
    | call j p k err ht hc =>
      have hrec : received (sched ++ [Action.call j]) = received sched := by
        simp [received, List.count_append]
      rw [hrec]
      exact ⟨ih1, ih2, ih3, ih4⟩
    | publishTemp j p k ht hcap =>
      have hrec : received (sched ++ [Action.publish j]) = received sched := by
        simp [received, List.count_append]
      rw [hrec]
      exact ⟨ih1, ih2, ih3, ih4⟩
    | publishErr j p k err ht hcap =>
      have hrec : received (sched ++ [Action.publish j]) = received sched := by
        simp [received, List.count_append]
      rw [hrec]
      exact ⟨ih1, ih2, ih3, ih4⟩

theorem getElem?_set_of_some {α : Type} (l : List α) (j : Nat) (a b : α)
    (h : l[j]? = some a) (i : Nat) :
    (l.set j b)[i]? = if i = j then some b else l[i]? := by
  induction l generalizing j i with
  | nil => simp at h
  | cons x xs ih =>
    cases j with
    | zero =>
      cases i with
      | zero => simp
      | succ i => simp
    | succ j =>
      simp only [List.getElem?_cons_succ] at h
      cases i with
      | zero => simp
      | succ i => simpa using ih j h i

theorem getElem?_append_singleton {α : Type} (l : List α) (t : α) (i : Nat) :
    (l ++ [t])[i]? = if i < l.length then l[i]? else if i = l.length then some t else none := by
  induction l generalizing i with
  | nil =>
    cases i with
    | zero => simp
    | succ i => simp
  | cons x xs ih =>
    cases i with
    | zero => simp
    | succ i => simpa using ih i

theorem exited_set {s : State ε} (j : Nat) (t t' : Task ε) (h : s.tasks[j]? = some t)
    (main : MainPc ε) (temps : List ℚ) (errs : List ε) (i : Nat) :
    State.exited { main := main, tasks := s.tasks.set j t', temps := temps, errs := errs } i =
      if i = j then (match t'.pc with | TaskPc.done => true | _ => false) else s.exited i := by
  unfold State.exited
  simp only [getElem?_set_of_some s.tasks j t t' h i]
  by_cases hij : i = j
  · simp only [hij, if_true]
    obtain ⟨p, pc⟩ := t'
    cases pc <;> rfl
  · simp only [hij, if_false]

/-- Goroutines are launched only by `launch`, and goroutine `j` sends exactly once:
the schedule holds one `publish j` if it has exited and none otherwise. -/
theorem publish_count {w : multiWeatherProvider ε} {city : String} (sched : List Action)
    (s : State ε) (h : run w city start sched = some s) :
    sched.count Action.launch = s.tasks.length ∧
    ∀ j, sched.count (Action.publish j) = if s.exited j then 1 else 0 := by
  refine run_induction
    (fun sched s => sched.count Action.launch = s.tasks.length ∧
      ∀ j, sched.count (Action.publish j) = if s.exited j then 1 else 0) ?_ ?_ sched s h
  · refine ⟨rfl, fun j => ?_⟩
    simp [State.exited, start]
  · intro sched s a s' hrun ih hstep
    obtain ⟨ih1, ih2⟩ := ih
    cases hstep with
    | launch i p hm hp =>
      refine ⟨by simp [List.count_append, ih1], fun j => ?_⟩
      have hex : State.exited
          { main := MainPc.launching (i + 1), tasks := s.tasks ++ [{ p := p, pc := TaskPc.calling }],
            temps := s.temps, errs := s.errs } j = s.exited j := by
        unfold State.exited
        simp only [getElem?_append_singleton]
        by_cases h1 : j < s.tasks.length
        · simp only [h1, if_true]
        · simp only [h1, if_false]
          rw [List.getElem?_eq_none (by omega)]
          by_cases h2 : j = s.tasks.length
          · simp only [h2, if_true]
          · simp only [h2, if_false]
      rw [hex, ← ih2 j]
      simp [List.count_append]
    | enterLoop i hm hi =>
      refine ⟨by simpa [List.count_append] using ih1, fun j => ?_⟩
      have := ih2 j
      simpa [List.count_append, State.exited] using this
    | recvTemp i sum temp rest hm ht hi =>
      refine ⟨by simpa [List.count_append] using ih1, fun j => ?_⟩
      have := ih2 j
      simpa [List.count_append, State.exited] using this
    | recvErr i sum err rest hm he hi =>
      refine ⟨by simpa [List.count_append] using ih1, fun j => ?_⟩
      have := ih2 j
      simpa [List.count_append, State.exited] using this
    | finish i sum hm hi =>
      refine ⟨by simpa [List.count_append] using ih1, fun j => ?_⟩
      have := ih2 j
      simpa [List.count_append, State.exited] using this
    | call j0 p k err ht hc =>
      refine ⟨by simpa [List.count_append] using ih1, fun j => ?_⟩
      rw [exited_set j0 _ _ ht]
      have hnot : s.exited j0 = false := by simp [State.exited, ht]
      by_cases hj : j = j0
      · subst hj
        have := ih2 j
        simp only [hnot] at this
        simpa [List.count_append] using this
      · have := ih2 j
        simpa [List.count_append, hj] using this
    | publishTemp j0 p k ht hcap =>
      refine ⟨by simpa [List.count_append] using ih1, fun j => ?_⟩
      rw [exited_set j0 _ _ ht]
      have hnot : s.exited j0 = false := by simp [State.exited, ht]
      by_cases hj : j = j0
      · subst hj
        have := ih2 j
        simp only [hnot] at this
        simpa [List.count_append] using this
      · have := ih2 j
        have hne : (Action.publish j0 == Action.publish j) = false := by
          simp only [beq_eq_false_iff_ne, ne_eq, Action.publish.injEq]
          exact fun h => hj h.symm
        simpa [List.count_append, hj, List.count_cons, hne] using this
    | publishErr j0 p k err ht hcap =>
      refine ⟨by simpa [List.count_append] using ih1, fun j => ?_⟩
      rw [exited_set j0 _ _ ht]
      have hnot : s.exited j0 = false := by simp [State.exited, ht]
      by_cases hj : j = j0
      · subst hj
        have := ih2 j
        simp only [hnot] at this
        simpa [List.count_append] using this
      · have := ih2 j
        have hne : (Action.publish j0 == Action.publish j) = false := by
          simp only [beq_eq_false_iff_ne, ne_eq, Action.publish.injEq]
          exact fun h => hj h.symm
        simpa [List.count_append, hj, List.count_cons, hne] using this

/-! ## What the call returns -/

theorem result_eq_none_iff (s : State ε) :
    s.result = none ↔ ∀ v err, s.main ≠ MainPc.returned v err := by
  unfold State.result
  cases s.main <;> simp

theorem not_terminal_of_result_none (s : State ε) (h : s.result = none) : ¬ s.terminal := by
  rintro ⟨⟨v, err, hm⟩, _⟩
  exact (result_eq_none_iff s).mp h v err hm

/-- Whatever the schedule, a returned pair has one of the two shapes of `Outcome`. -/
theorem outcome_of_result {w : multiWeatherProvider ε} {city : String} (sched : List Action)
    (s : State ε) (h : run w city start sched = some s) (r : F64 × Option ε)
    (hr : s.result = some r) : Outcome w city r.1 r.2 := by
  unfold State.result at hr
  cases hm : s.main with
  | launching i => rw [hm] at hr; cases hr
  | selecting i sum => rw [hm] at hr; cases hr
  | returned v err =>
    rw [hm] at hr
    simp only [Option.some.injEq] at hr
    subst hr
    exact ((inv_run sched s h).afterLoop v err hm).2.2

/-- When no provider hangs, the call returns under every schedule, with a pair of
one of the two shapes of `Outcome`. -/
theorem returnsWith_of_outcome (w : multiWeatherProvider ε) (city : String)
    (P : F64 × Option ε → Prop) (hret : ∀ p ∈ w, ∃ k err, p city = Call.ret k err)
    (hP : ∀ v err, Outcome w city v err → P (v, err)) : ReturnsWith w city P := by
  intro sched s h
  have hinv := inv_run sched s h
  refine ⟨run_length_le sched s h, ?_, ?_⟩
  · intro hres
    exact progress hinv (not_terminal_of_result_none s hres)
      (fun t ht _ => hret t.p (hinv.task_mem t ht))
  · intro r hr
    exact hP r.1 r.2 (outcome_of_result sched s h r hr)

theorem all_ok_of_map_eq (w : multiWeatherProvider ε) (city : String) (vs : List ℚ)
    (hw : w.map (fun p => p city) = vs.map (fun v => Call.ret v none)) :
    (∀ p ∈ w, ∃ k, p city = Call.ret k none) ∧ (w.map (okVal city)).sum = vs.sum ∧
      w.length = vs.length := by
  induction w generalizing vs with
  | nil =>
    cases vs with
    | nil => simp
    | cons v vs => simp at hw
  | cons p ps ih =>
    cases vs with
    | nil => simp at hw
    | cons v vs =>
      simp only [List.map_cons, List.cons.injEq] at hw
      obtain ⟨h1, h2, h3⟩ := ih vs hw.2
      refine ⟨?_, ?_, ?_⟩
      · intro q hq
        rcases List.mem_cons.mp hq with rfl | hq
        · exact ⟨v, hw.1⟩
        · exact h1 q hq
      · simp only [List.map_cons, List.sum_cons, h2]
        simp [okVal, hw.1]
      · simp [h3]

theorem le_sum_map_of_mem {α : Type} (f : α → Nat) (l : List α) (a : α) (h : a ∈ l) :
    f a ≤ (l.map f).sum := by
  induction l with
  | nil => simp at h
  | cons x xs ih =>
    simp only [List.map_cons, List.sum_cons]
    rcases List.mem_cons.mp h with rfl | h
    · omega
    · have := ih h
      omega

/-- While the call has not returned, some action is enabled as soon as one provider
fails, whatever the other providers do. -/
theorem progress_of_failure {w : multiWeatherProvider ε} {city : String} {s : State ε}
    (hinv : Inv w city s) (hres : s.result = none)
    (hfail : ∃ p ∈ w, ∃ k e, p city = Call.ret k (some e)) :
    ∃ a s', step w city s a = some s' := by
  cases hm : s.main with
  | launching i =>
    by_cases hi : i < w.length
    · have hp : w[i]? = some w[i] := List.getElem?_eq_getElem hi
      exact ⟨Action.launch, _, step_complete (Step.launch s i _ hm hp)⟩
    · exact ⟨Action.enterLoop, _, step_complete (Step.enterLoop s i hm (by omega))⟩
  | selecting i sum =>
    by_cases hi : i < w.length
    · cases htemps : s.temps with
      | cons temp rest =>
        exact ⟨Action.recvTemp, _, step_complete (Step.recvTemp s i sum temp rest hm htemps hi)⟩
      | nil =>
        cases herrs : s.errs with
        | cons err rest =>
          exact ⟨Action.recvErr, _, step_complete (Step.recvErr s i sum err rest hm herrs hi)⟩
        | nil =>
          obtain ⟨_, _, h3⟩ := hinv.inLoop i sum hm
          have hl := hinv.launched (by intro i' h'; rw [hm] at h'; cases h')
          rw [herrs] at h3
          simp only [List.length_nil] at h3
          obtain ⟨p, hp, k, e, hc⟩ := hfail
          have hprov : s.tasks.map Task.p = w := by
            rw [hinv.providers, hl, List.take_length]
          rw [← hprov] at hp
          obtain ⟨t, ht, rfl⟩ := List.mem_map.mp hp
          have hpc : t.pc ≠ TaskPc.done := by
            intro hd
            have h1 : errDone city t = 1 := by simp [errDone, hd, hc]
            have h2 := le_sum_map_of_mem (errDone city) s.tasks t ht
            omega
          exact task_enabled hinv t ht hpc (fun _ => ⟨k, some e, hc⟩)
    · exact ⟨Action.finish, _, step_complete (Step.finish s i sum hm (by omega))⟩
  | returned v err =>
    simp [State.result, hm] at hres

/-- A call that returns under every schedule does return: some schedule is an
execution at whose end the call has returned. -/
theorem exists_result_of_returnsWith (w : multiWeatherProvider ε) (city : String)
    (P : F64 × Option ε → Prop) (h : ReturnsWith w city P) :
    ∃ sched r, multiWeatherProvider.temperature w city sched = some r ∧ P r := by
  have key : ∀ (n : Nat) (sched : List Action) (s : State ε),
      run w city start sched = some s → 4 * w.length + 2 - sched.length ≤ n →
      ∃ sched' r, multiWeatherProvider.temperature w city sched' = some r ∧ P r := by
    intro n
    induction n with
    | zero =>
      intro sched s hs hle
      obtain ⟨_, hprog, hsafe⟩ := h sched s hs
      cases hres : s.result with
      | none =>
        obtain ⟨a, s', ha⟩ := hprog hres
        have hs' : run w city start (sched ++ [a]) = some s' := by
          rw [run_snoc, hs]
          exact ha
        have hlen := (h _ s' hs').1
        simp only [List.length_append, List.length_singleton] at hlen
        omega
      | some r =>
        refine ⟨sched, r, ?_, hsafe r hres⟩
        simp [multiWeatherProvider.temperature, hs, hres]
    | succ n ih =>
      intro sched s hs hle
      obtain ⟨_, hprog, hsafe⟩ := h sched s hs
      cases hres : s.result with
      | none =>
        obtain ⟨a, s', ha⟩ := hprog hres
        have hs' : run w city start (sched ++ [a]) = some s' := by
          rw [run_snoc, hs]
          exact ha
        have hlen := (h _ s' hs').1
        simp only [List.length_append, List.length_singleton] at hlen
        apply ih (sched ++ [a]) s' hs'
        simp only [List.length_append, List.length_singleton]
        omega
      | some r =>
        refine ⟨sched, r, ?_, hsafe r hres⟩
        simp [multiWeatherProvider.temperature, hs, hres]
  exact key _ [] start rfl (Nat.le_refl _)

/-- The fan-in loop receives at most `len(w)` outcomes. -/
theorem received_le_length {w : multiWeatherProvider ε} {city : String}
    (sched : List Action) (s : State ε) (h : run w city start sched = some s) :
    received sched ≤ w.length := by
  obtain ⟨h1, h2, h3, _⟩ := received_le sched s h
  cases hm : s.main with
  | launching i => rw [h1 i hm]; exact Nat.zero_le _
  | selecting i sum => rw [(h2 i sum hm).1]; exact (h2 i sum hm).2
  | returned v err => exact h3 v err hm

/-! ## The claims about the aggregator -/

/-- Claim C1. When all N ≥ 1 providers succeed with values `vs`, the call returns,
under every schedule (so for every arrival order on `temps`), a nil error and the
value `(v1 + ... + vN) / N`, and some schedule does reach that return; with a
single provider the value is the provider's value. -/
theorem temperature_mean_of_successes (w : multiWeatherProvider ε) (city : String)
    (vs : List ℚ) (hN : 1 ≤ w.length)
    (hw : w.map (fun p => p city) = vs.map (fun v => Call.ret v none)) :
    ReturnsWith w city (fun r => r = (F64.fin (vs.sum / (w.length : ℚ)), none)) ∧
    (∃ sched, multiWeatherProvider.temperature w city sched =
      some (F64.fin (vs.sum / (w.length : ℚ)), none)) ∧
    (∀ v, vs = [v] → ReturnsWith w city (fun r => r = (F64.fin v, none))) := by
  obtain ⟨hok, hsum, hlen⟩ := all_ok_of_map_eq w city vs hw
  have hmain : ReturnsWith w city (fun r => r = (F64.fin (vs.sum / (w.length : ℚ)), none)) := by
    apply returnsWith_of_outcome
    · intro p hp
      obtain ⟨k, hk⟩ := hok p hp
      exact ⟨k, none, hk⟩
    · intro v err hout
      rcases hout with ⟨herr, _, hv⟩ | ⟨e, _, _, p, hp, k, hk⟩
      · have hne : w.length ≠ 0 := by omega
        rw [hv, herr, hsum]
        simp [divFloat64, hne]
      · obtain ⟨k', hk'⟩ := hok p hp
        rw [hk] at hk'
        cases hk'
  refine ⟨hmain, ?_, ?_⟩
  · obtain ⟨sched, r, hr, hP⟩ := exists_result_of_returnsWith w city _ hmain
    exact ⟨sched, by rw [hr, hP]⟩
  · intro v hv
    subst hv
    have h1 : w.length = 1 := by simpa using hlen
    simpa [h1] using hmain

theorem temperature_mean_of_successes_witness :
    1 ≤ scenarioA.length ∧
    ReturnsWith scenarioA "london"
      (fun r => r = (F64.fin (([300, 310, 290] : List ℚ).sum / (scenarioA.length : ℚ)), none)) ∧
    (([300, 310, 290] : List ℚ).sum / (scenarioA.length : ℚ) = 300) ∧
    (multiWeatherProvider.temperature scenarioA "london" scheduleA = some (F64.fin 300, none)) := by
  refine ⟨by decide,
    (temperature_mean_of_successes scenarioA "london" [300, 310, 290] (by decide) rfl).1,
    ?_, ?_⟩
  · norm_num [scenarioA]
  · simp [multiWeatherProvider.temperature, run, step, scenarioA, scheduleA, start,
      State.result, divFloat64]
    norm_num

/-- Claim C2. When at least one provider fails, the call returns under every schedule
and every choice of the `select`, and what it returns is never a success: the
value is 0 (no partial sum or average) and the error is non-nil; some schedule
does reach that return. -/
theorem temperature_fails_when_a_provider_fails (w : multiWeatherProvider ε) (city : String)
    (hfail : ∃ p ∈ w, ∃ k e, p city = Call.ret k (some e)) :
    ReturnsWith w city (fun r => r.1 = F64.fin 0 ∧ ∃ e, r.2 = some e) ∧
    (∃ sched e, multiWeatherProvider.temperature w city sched = some (F64.fin 0, some e)) := by
  have hmain : ReturnsWith w city (fun r => r.1 = F64.fin 0 ∧ ∃ e, r.2 = some e) := by
    intro sched s h
    have hinv := inv_run sched s h
    refine ⟨run_length_le sched s h, fun hres => progress_of_failure hinv hres hfail, ?_⟩
    intro r hr
    rcases outcome_of_result sched s h r hr with ⟨_, hok, _⟩ | ⟨e, herr, hv, _⟩
    · obtain ⟨p, hp, k, e, hc⟩ := hfail
      obtain ⟨k', hk'⟩ := hok p hp
      rw [hc] at hk'
      cases hk'
    · exact ⟨hv, e, herr⟩
  refine ⟨hmain, ?_⟩
  obtain ⟨sched, ⟨v, err⟩, hr, hv, e, he⟩ := exists_result_of_returnsWith w city _ hmain
  simp only at hv he
  exact ⟨sched, e, by rw [hr, hv, he]⟩

theorem temperature_fails_when_a_provider_fails_witness :
    ReturnsWith scenarioB "london" (fun r => r.1 = F64.fin 0 ∧ ∃ e, r.2 = some e) ∧
    (multiWeatherProvider.temperature scenarioB "london" scheduleB =
      some (F64.fin 0, some "timeout")) := by
  refine ⟨(temperature_fails_when_a_provider_fails scenarioB "london"
    ⟨fun _ => Call.ret 0 (some "timeout"), by simp [scenarioB], 0, "timeout", rfl⟩).1, ?_⟩
  simp [multiWeatherProvider.temperature, run, step, scenarioB, scheduleB, start,
    State.result]

/-- Claim C3. An error returned by the call is the error of one of the failing
providers, unchanged, and it is the first error that was sent on `errs`; so when
all failing providers share one error `e0` (in particular when exactly one
provider fails) the call returns `e0`. -/
theorem temperature_error_is_first_sent (w : multiWeatherProvider ε) (city : String)
    (sched : List Action) (s : State ε) (v : F64) (e : ε)
    (h : run w city start sched = some s) (hr : s.result = some (v, some e)) :
    (∃ p ∈ w, ∃ k, p city = Call.ret k (some e)) ∧
    (errsLog w city start sched).head? = some e ∧
    (∀ e0, (∀ p ∈ w, ∀ k e', p city = Call.ret k (some e') → e' = e0) → e = e0) := by
  have hm : s.main = MainPc.returned v (some e) := by
    unfold State.result at hr
    cases hs : s.main with
    | launching i => rw [hs] at hr; cases hr
    | selecting i sum => rw [hs] at hr; cases hr
    | returned v' err' =>
      rw [hs] at hr
      simp only [Option.some.injEq, Prod.mk.injEq] at hr
      rw [hr.1, hr.2]
  have hmem : ∃ p ∈ w, ∃ k, p city = Call.ret k (some e) := by
    rcases outcome_of_result sched s h (v, some e) hr with ⟨herr, _⟩ | ⟨e', herr, _, hp⟩
    · cases herr
    · simp only [Option.some.injEq] at herr
      subst herr
      exact hp
  refine ⟨hmem, (errs_eq_log sched s h).2 v e hm, ?_⟩
  intro e0 hall
  obtain ⟨p, hp, k, hk⟩ := hmem
  exact hall p hp k e hk

theorem temperature_error_is_first_sent_witness :
    (∃ p ∈ scenarioB, ∃ k, p "london" = Call.ret k (some "timeout")) ∧
    (errsLog scenarioB "london" start scheduleB).head? = some "timeout" := by
  have hrun : ∃ s, run scenarioB "london" start scheduleB = some s ∧
      s.result = some (F64.fin 0, some "timeout") := by
    simp [run, step, scenarioB, scheduleB, start, State.result]
  obtain ⟨s, hs, hr⟩ := hrun
  have h := temperature_error_is_first_sent scenarioB "london" scheduleB s (F64.fin 0)
    "timeout" hs hr
  exact ⟨h.1, h.2.1⟩

/-- Claim C4. A call never deadlocks: in every reachable state that is not terminal
and in which every call still running can return, some action is enabled; the
fan-in loop receives at most `len(w)` outcomes; no execution is longer than
`4 * len(w) + 2` actions; so an execution that cannot be continued has reached
a returned pair (SUCCESS or FAILURE). -/
theorem temperature_never_deadlocks (w : multiWeatherProvider ε) (city : String)
    (sched : List Action) (s : State ε) (h : run w city start sched = some s) :
    (¬ s.terminal → s.callsCanReturn city → ∃ a s', step w city s a = some s') ∧
    received sched ≤ w.length ∧
    sched.length ≤ 4 * w.length + 2 ∧
    ((∀ a, step w city s a = none) → s.callsCanReturn city →
      ∃ r, s.result = some r ∧ Outcome w city r.1 r.2) := by
  have hinv := inv_run sched s h
  have hprog : ¬ s.terminal → s.callsCanReturn city → ∃ a s', step w city s a = some s' :=
    fun hnt hcan => progress hinv hnt hcan
  refine ⟨hprog, ?_, run_length_le sched s h, ?_⟩
  · exact received_le_length sched s h
  · intro hstuck hcan
    cases hres : s.result with
    | none =>
      obtain ⟨a, s', hs'⟩ := hprog (not_terminal_of_result_none s hres) hcan
      rw [hstuck a] at hs'
      cases hs'
    | some r => exact ⟨r, rfl, outcome_of_result sched s h r hres⟩

theorem temperature_never_deadlocks_witness :
    (∃ a s', step scenarioA "london" stateAllCalling a = some s') ∧
    received [Action.launch, Action.launch, Action.launch, Action.enterLoop] ≤
      scenarioA.length := by
  have hrun : run scenarioA "london" start
      [Action.launch, Action.launch, Action.launch, Action.enterLoop] =
      some stateAllCalling := by
    simp [run, step, scenarioA, start, stateAllCalling]
  have h := temperature_never_deadlocks scenarioA "london" _ stateAllCalling hrun
  refine ⟨h.1 ?_ ?_, h.2.1⟩
  · apply not_terminal_of_result_none
    rfl
  · intro t ht _
    simp only [stateAllCalling, List.mem_cons, List.mem_singleton, List.not_mem_nil,
      or_false] at ht
    rcases ht with rfl | rfl | rfl
    · exact ⟨300, none, rfl⟩
    · exact ⟨310, none, rfl⟩
    · exact ⟨290, none, rfl⟩

/-- A provider that never returns can block the call for ever: `stateBlocked` is
reachable, the call has not returned in it, and no action is enabled. -/
theorem hanging_provider_blocks :
    run scenarioHang "london" start
      [Action.launch, Action.launch, Action.enterLoop, Action.call 0, Action.publish 0,
       Action.recvTemp] = some stateBlocked ∧
    stateBlocked.result = none ∧
    ∀ a, step scenarioHang "london" stateBlocked a = none := by
  refine ⟨?_, rfl, ?_⟩
  · simp [run, step, scenarioHang, start, stateBlocked]
  · intro a
    cases a with
    | launch => rfl
    | enterLoop => rfl
    | recvTemp => rfl
    | recvErr => rfl
    | finish => simp [step, stateBlocked, scenarioHang]
    | call j =>
      match j with
      | 0 => rfl
      | 1 => rfl
      | (j + 2) => simp [step, stateBlocked]
    | publish j =>
      match j with
      | 0 => rfl
      | 1 => rfl
      | (j + 2) => simp [step, stateBlocked]

/-- Claim C5, as stated, fails: the two providers of `scenarioTwoErrors` have fixed
outcomes, yet one schedule returns the error of provider 0 and another schedule
returns the error of provider 1. -/
theorem temperature_result_depends_on_schedule :
    multiWeatherProvider.temperature scenarioTwoErrors "london" scheduleFirst =
      some (F64.fin 0, some "timeout") ∧
    multiWeatherProvider.temperature scenarioTwoErrors "london" scheduleSecond =
      some (F64.fin 0, some "refused") ∧
    ((F64.fin 0, some "timeout") : F64 × Option String) ≠ (F64.fin 0, some "refused") := by
  refine ⟨?_, ?_, ?_⟩
  · simp [multiWeatherProvider.temperature, run, step, scenarioTwoErrors, scheduleFirst,
      start, State.result]
  · simp [multiWeatherProvider.temperature, run, step, scenarioTwoErrors, scheduleSecond,
      start, State.result]
  · simp

/-- Claim C5, amended. For fixed provider outcomes in which all failing providers
return the same error (in particular when none or exactly one fails), there is
one pair `(value, error)` that the call returns under every schedule: when a
provider fails it is `(0, e)` for the common error `e`, with no arithmetic on
the way; when no provider fails it is a nil error with the mean of the values.
The equality of the values is stated over exact arithmetic: the sum of line 124
is accumulated in arrival order, which a `float64` sum can show in its rounding
and a rational sum cannot. -/
theorem temperature_result_schedule_independent (w : multiWeatherProvider ε) (city : String)
    (hret : ∀ p ∈ w, ∃ k err, p city = Call.ret k err)
    (hsame : ∀ p1 ∈ w, ∀ p2 ∈ w, ∀ k1 k2 e1 e2,
      p1 city = Call.ret k1 (some e1) → p2 city = Call.ret k2 (some e2) → e1 = e2) :
    (∃ r, ReturnsWith w city (fun r' => r' = r)) ∧
    (∀ p0 ∈ w, ∀ k0 e0, p0 city = Call.ret k0 (some e0) →
      ReturnsWith w city (fun r' => r' = (F64.fin 0, some e0))) ∧
    ((∀ p ∈ w, ∃ k, p city = Call.ret k none) →
      ReturnsWith w city
        (fun r' => r' = (divFloat64 ((w.map (okVal city)).sum) w.length, none))) := by
  have hfailCase : ∀ p0 ∈ w, ∀ k0 e0, p0 city = Call.ret k0 (some e0) →
      ReturnsWith w city (fun r' => r' = (F64.fin 0, some e0)) := by
    intro p0 hp0 k0 e0 hc0
    refine returnsWith_of_outcome w city _ hret ?_
    intro v err hout
    rcases hout with ⟨_, hok, _⟩ | ⟨e, herr, hv, p, hp, k, hk⟩
    · obtain ⟨k', hk'⟩ := hok p0 hp0
      rw [hc0] at hk'
      cases hk'
    · rw [herr, hv, hsame p hp p0 hp0 k k0 e e0 hk hc0]
  have hokCase : (∀ p ∈ w, ∃ k, p city = Call.ret k none) →
      ReturnsWith w city
        (fun r' => r' = (divFloat64 ((w.map (okVal city)).sum) w.length, none)) := by
    intro hok
    refine returnsWith_of_outcome w city _ hret ?_
    intro v err hout
    rcases hout with ⟨herr, _, hv⟩ | ⟨e, _, _, p, hp, k, hk⟩
    · rw [herr, hv]
    · obtain ⟨k', hk'⟩ := hok p hp
      rw [hk] at hk'
      cases hk'
  refine ⟨?_, hfailCase, hokCase⟩
  by_cases hfail : ∃ p ∈ w, ∃ k e, p city = Call.ret k (some e)
  · obtain ⟨p0, hp0, k0, e0, hc0⟩ := hfail
    exact ⟨_, hfailCase p0 hp0 k0 e0 hc0⟩
  · refine ⟨_, hokCase ?_⟩
    intro p hp
    obtain ⟨k, err, hk⟩ := hret p hp
    cases err with
    | none => exact ⟨k, hk⟩
    | some e => exact absurd ⟨p, hp, k, e, hk⟩ hfail

theorem temperature_result_schedule_independent_witness :
    ReturnsWith scenarioB "london" (fun r' => r' = (F64.fin 0, some "timeout")) ∧
    multiWeatherProvider.temperature scenarioB "london"
      [Action.launch, Action.launch, Action.launch, Action.enterLoop, Action.call 1,
       Action.publish 1, Action.recvErr] = some (F64.fin 0, some "timeout") := by
  have h := temperature_result_schedule_independent scenarioB "london"
    (by
      intro p hp
      simp only [scenarioB, List.mem_cons, List.mem_singleton, List.not_mem_nil, or_false] at hp
      rcases hp with rfl | rfl | rfl
      · exact ⟨300, none, rfl⟩
      · exact ⟨0, some "timeout", rfl⟩
      · exact ⟨290, none, rfl⟩)
    (by
      intro p1 hp1 p2 hp2 k1 k2 e1 e2 h1 h2
      simp only [scenarioB, List.mem_cons, List.mem_singleton, List.not_mem_nil, or_false]
        at hp1 hp2
      rcases hp1 with rfl | rfl | rfl <;> rcases hp2 with rfl | rfl | rfl <;>
        simp_all)
  refine ⟨h.2.1 (fun _ => Call.ret 0 (some "timeout")) (by simp [scenarioB]) 0 "timeout" rfl, ?_⟩
  simp [multiWeatherProvider.temperature, run, step, scenarioB, start, State.result]

theorem Inv.provider_at {w : multiWeatherProvider ε} {city : String} {s : State ε}
    (hinv : Inv w city s) (j : Nat) (t : Task ε) (ht : s.tasks[j]? = some t) :
    w[j]? = some t.p := by
  have hj : j < s.tasks.length := by
    by_contra hcon
    rw [List.getElem?_eq_none (by omega)] at ht
    cases ht
  have h1 : (s.tasks.map Task.p)[j]? = some t.p := by
    rw [List.getElem?_map, ht]
    rfl
  rw [hinv.providers, List.getElem?_take_of_lt hj] at h1
  exact h1

/-- Claim C9, as stated, fails: the `go` statements run one after the other, so after
the first of them one goroutine is launched, not three. -/
theorem temperature_launches_one_at_a_time :
    (run scenarioA "london" start [Action.launch]).map (fun s => s.tasks.length) = some 1 ∧
    scenarioA.length = 3 := by
  refine ⟨?_, rfl⟩
  simp [run, step, scenarioA, start]

/-- Claim C9, amended. In every reachable state the goroutines launched so far are
one per provider, in order (goroutine `j` runs `w[j]`), at most `len(w)` and
exactly `len(w)` once the launch loop is over; each goroutine has sent at most once;
a send goes to `temps` alone when the provider succeeded and to `errs` alone
when it failed; both channels hold at most `len(w)` items; and a goroutine that
is about to send can always do so, also after the call has returned. -/
theorem temperature_channel_invariant (w : multiWeatherProvider ε) (city : String)
    (sched : List Action) (s : State ε) (h : run w city start sched = some s) :
    sched.count Action.launch = s.tasks.length ∧
    (∀ (j : Nat) (t : Task ε), s.tasks[j]? = some t → w[j]? = some t.p) ∧
    s.tasks.length ≤ w.length ∧
    ((∀ i, s.main ≠ MainPc.launching i) → s.tasks.length = w.length) ∧
    (∀ j, sched.count (Action.publish j) ≤ 1) ∧
    (∀ j s', step w city s (Action.publish j) = some s' →
      (∃ p k, w[j]? = some p ∧ p city = Call.ret k none ∧
        s'.temps = s.temps ++ [k] ∧ s'.errs = s.errs) ∨
      (∃ p k e, w[j]? = some p ∧ p city = Call.ret k (some e) ∧
        s'.errs = s.errs ++ [e] ∧ s'.temps = s.temps)) ∧
    s.temps.length ≤ w.length ∧ s.errs.length ≤ w.length ∧
    (∀ (j : Nat) (p : weatherProvider ε) (k : ℚ) (err : Option ε),
      s.tasks[j]? = some { p := p, pc := TaskPc.returned k err } →
      ∃ s', step w city s (Action.publish j) = some s') := by
  have hinv := inv_run sched s h
  obtain ⟨hl, hp⟩ := publish_count sched s h
  refine ⟨hl, hinv.provider_at, hinv.tasks_le, hinv.launched, ?_, ?_, hinv.chan_le_cap.1,
    hinv.chan_le_cap.2, ?_⟩
  · intro j
    rw [hp j]
    split <;> omega
  · intro j s' hs
    generalize ha : Action.publish j = a at hs
    cases step_sound hs with
    | launch i p hm hp => cases ha
    | enterLoop i hm hi => cases ha
    | recvTemp i sum temp rest hm ht hi => cases ha
    | recvErr i sum err rest hm he hi => cases ha
    | finish i sum hm hi => cases ha
    | call j' p k err ht hc => cases ha
    | publishTemp j' p k ht hcap =>
      cases ha
      have hc := (hinv.pcs _ (mem_of_getElem?_eq _ _ _ ht)).1 k none rfl
      exact Or.inl ⟨p, k, hinv.provider_at j _ ht, hc, rfl, rfl⟩
    | publishErr j' p k err ht hcap =>
      cases ha
      have hc := (hinv.pcs _ (mem_of_getElem?_eq _ _ _ ht)).1 k (some err) rfl
      exact Or.inr ⟨p, k, err, hinv.provider_at j _ ht, hc, rfl, rfl⟩
  · intro j p k err ht
    have hroom := hinv.room _ (mem_of_getElem?_eq _ _ _ ht) (by simp)
    cases err with
    | none => exact ⟨_, step_complete (Step.publishTemp s j p k ht hroom.1)⟩
    | some e => exact ⟨_, step_complete (Step.publishErr s j p k e ht hroom.2)⟩

theorem temperature_channel_invariant_witness :
    (∃ s, run scenarioB "london" start scheduleB = some s ∧
      s.tasks.length = scenarioB.length ∧ s.temps.length ≤ 3 ∧ s.errs.length ≤ 3) ∧
    scheduleB.count (Action.publish 1) ≤ 1 := by
  have hrun : ∃ s, run scenarioB "london" start scheduleB = some s ∧
      ∀ i, s.main ≠ MainPc.launching i := by
    simp [run, step, scenarioB, scheduleB, start]
  obtain ⟨s, hs, hm⟩ := hrun
  have h := temperature_channel_invariant scenarioB "london" scheduleB s hs
  exact ⟨⟨s, hs, h.2.2.2.1 hm, h.2.2.2.2.2.2.1, h.2.2.2.2.2.2.2.1⟩, h.2.2.2.2.1 1⟩

/-- Claim C10. With zero providers the call launches nothing and receives nothing,
and it returns under every schedule a nil error with the value `0 / float64(0)`,
which is NaN: the division of line 129 is reached without any check of `len(w)`. -/
theorem temperature_zero_providers (city : String) :
    ReturnsWith ([] : multiWeatherProvider ε) city (fun r => r = (divFloat64 0 0, none)) ∧
    divFloat64 0 0 = F64.nan ∧
    run ([] : multiWeatherProvider ε) city start [Action.enterLoop, Action.finish] =
      some { main := MainPc.returned (divFloat64 0 0) none, tasks := [], temps := [],
             errs := [] } ∧
    (∀ sched s, run ([] : multiWeatherProvider ε) city start sched = some s →
      sched.count Action.launch = 0 ∧ s.tasks = [] ∧ received sched = 0 ∧
      s.temps = [] ∧ s.errs = []) := by
  refine ⟨?_, by simp [divFloat64], by simp [run, step, start], ?_⟩
  · apply returnsWith_of_outcome
    · intro p hp
      cases hp
    · intro v err hout
      rcases hout with ⟨herr, _, hv⟩ | ⟨e, _, _, p, hp, _⟩
      · rw [herr, hv]
        simp
      · cases hp
  · intro sched s h
    have hinv := inv_run sched s h
    have h1 := hinv.tasks_le
    have h2 := hinv.chan_le_cap
    have h3 := (received_le_length sched s h)
    have h4 := (publish_count sched s h).1
    simp only [List.length_nil, Nat.le_zero_eq] at h1 h2 h3
    refine ⟨by omega, List.eq_nil_of_length_eq_zero h1, h3,
      List.eq_nil_of_length_eq_zero h2.1, List.eq_nil_of_length_eq_zero h2.2⟩

theorem temperature_zero_providers_witness :
    multiWeatherProvider.temperature ([] : multiWeatherProvider String) "london"
      [Action.enterLoop, Action.finish] = some (F64.nan, none) ∧
    received [Action.enterLoop, Action.finish] = 0 := by
  have h := @temperature_zero_providers String "london"
  refine ⟨?_, (h.2.2.2 _ _ h.2.2.1).2.2.1⟩
  unfold multiWeatherProvider.temperature
  rw [h.2.2.1, ← h.2.1]
  rfl

/-! ## The claims about the concrete providers -/

/-- Claim C6, as stated, fails: on a response with status 404 whose JSON body lacks
the temperature field, `openWeatherMap.temperature` returns a temperature (0)
with a nil error. -/
theorem openWeatherMap_accepts_not_found :
    (∃ resp, getNotFound ("http://api.openweathermap.org/data/2.5/weather?q=" ++ "nowhere") =
      Except.ok resp ∧ resp.is2xx = false) ∧
    openWeatherMap.temperature {} getNotFound decodeAbsentField "nowhere" = (0, none) := by
  refine ⟨⟨_, rfl, ?_⟩, rfl⟩
  decide

/-- Claim C6, amended. Every concrete provider returns `(0, err)` when `http.Get`
returns the error `err` (a transport failure) or when the JSON decoder returns
the error `err` on the body, for `forecastio` in the geocoding exchange as in
the weather exchange; the status code is never inspected: every response
whose body decodes without error, whatever its status and also when the decoded
field was left at zero, gives a temperature with a nil error. -/
theorem providers_fail_iff_get_or_decode_fails {β : Type}
    (get : String → Except ε (Response β)) (decode : β → Except ε ℚ) (city : String) :
    (∀ w : openWeatherMap,
      (∀ e, get ("http://api.openweathermap.org/data/2.5/weather?q=" ++ city) = Except.error e →
        w.temperature get decode city = (0, some e)) ∧
      (∀ resp e, get ("http://api.openweathermap.org/data/2.5/weather?q=" ++ city) =
          Except.ok resp → decode resp.Body = Except.error e →
        w.temperature get decode city = (0, some e)) ∧
      (∀ resp k, get ("http://api.openweathermap.org/data/2.5/weather?q=" ++ city) =
          Except.ok resp → decode resp.Body = Except.ok k →
        w.temperature get decode city = (k, none))) ∧
    (∀ w : weatherUnderground,
      (∀ e, get ("http://api.wunderground.com/api/" ++ w.apiKey ++ "/conditions/q/uk/" ++ city
          ++ ".json") = Except.error e →
        w.temperature get decode city = (0, some e)) ∧
      (∀ resp e, get ("http://api.wunderground.com/api/" ++ w.apiKey ++ "/conditions/q/uk/" ++
          city ++ ".json") = Except.ok resp → decode resp.Body = Except.error e →
        w.temperature get decode city = (0, some e)) ∧
      (∀ resp c, get ("http://api.wunderground.com/api/" ++ w.apiKey ++ "/conditions/q/uk/" ++
          city ++ ".json") = Except.ok resp → decode resp.Body = Except.ok c →
        w.temperature get decode city = (c + 273.15, none))) ∧
    (∀ (w : forecastio) (decodeGeo : β → Except ε googleResponse) (formatFloat : ℚ → String),
      (∀ e, get ("https://maps.googleapis.com/maps/api/geocode/json?address=" ++ city) =
          Except.error e →
        w.temperature get decodeGeo decode formatFloat city = GoResult.ret (0, some e)) ∧
      (∀ resp e, get ("https://maps.googleapis.com/maps/api/geocode/json?address=" ++ city) =
          Except.ok resp → decodeGeo resp.Body = Except.error e →
        w.temperature get decodeGeo decode formatFloat city = GoResult.ret (0, some e)) ∧
      (∀ loc : locationData, location get decodeGeo city = GoResult.ret (loc, none) →
        (∀ e, get ("https://api.forecast.io/forecast/" ++ w.apiKey ++ "/" ++
            formatFloat loc.Latitude ++ "," ++ formatFloat loc.Longitude) = Except.error e →
          w.temperature get decodeGeo decode formatFloat city = GoResult.ret (0, some e)) ∧
        (∀ resp e, get ("https://api.forecast.io/forecast/" ++ w.apiKey ++ "/" ++
            formatFloat loc.Latitude ++ "," ++ formatFloat loc.Longitude) = Except.ok resp →
          decode resp.Body = Except.error e →
          w.temperature get decodeGeo decode formatFloat city = GoResult.ret (0, some e)) ∧
        (∀ resp f, get ("https://api.forecast.io/forecast/" ++ w.apiKey ++ "/" ++
            formatFloat loc.Latitude ++ "," ++ formatFloat loc.Longitude) = Except.ok resp →
          decode resp.Body = Except.ok f →
          w.temperature get decodeGeo decode formatFloat city =
            GoResult.ret ((f - 32) * 5 / 9 + 273.15, none)))) := by
  refine ⟨fun w => ⟨?_, ?_, ?_⟩, fun w => ⟨?_, ?_, ?_⟩,
    fun w decodeGeo formatFloat => ⟨?_, ?_, fun loc hloc => ⟨?_, ?_, ?_⟩⟩⟩
  · intro e h
    simp [openWeatherMap.temperature, h]
  · intro resp e h hd
    simp [openWeatherMap.temperature, h, hd]
  · intro resp k h hd
    simp [openWeatherMap.temperature, h, hd]
  · intro e h
    simp [weatherUnderground.temperature, h]
  · intro resp e h hd
    simp [weatherUnderground.temperature, h, hd]
  · intro resp c h hd
    simp [weatherUnderground.temperature, h, hd]
  · intro e h
    simp [forecastio.temperature, location, h]
  · intro resp e h hd
    simp [forecastio.temperature, location, h, hd]
  · intro e h
    simp [forecastio.temperature, hloc, h]
  · intro resp e h hd
    simp [forecastio.temperature, hloc, h, hd]
  · intro resp f h hd
    simp [forecastio.temperature, hloc, h, hd]

theorem providers_fail_iff_get_or_decode_fails_witness :
    weatherUnderground.temperature { apiKey := "key" } getRefused decodeAbsentField "london" =
      (0, some "connection refused") ∧
    weatherUnderground.temperature { apiKey := "key" } getNotFound decodeAbsentField "london" =
      (0 + 273.15, none) ∧
    forecastio.temperature { apiKey := "key" } getRefused decodeZeroResults decodeAbsentField
      (fun _ => "0.000000") "london" = GoResult.ret (0, some "connection refused") := by
  have h := (providers_fail_iff_get_or_decode_fails getRefused decodeAbsentField "london").2.1
    { apiKey := "key" }
  have h' := (providers_fail_iff_get_or_decode_fails getNotFound decodeAbsentField "london").2.1
    { apiKey := "key" }
  have h'' := (providers_fail_iff_get_or_decode_fails getRefused decodeAbsentField "london").2.2
    { apiKey := "key" } decodeZeroResults (fun _ => "0.000000")
  exact ⟨h.1 "connection refused" rfl, h'.2.2 _ 0 rfl rfl, h''.1 "connection refused" rfl⟩

/-- Claim C7, at the failing input: when the geocoding response decodes to an empty
`Results` list, `location` indexes `g.Results[0]` out of range and panics
instead of returning an error, and `forecastio.temperature` panics with it. -/
theorem location_panics_on_empty_results :
    location getZeroResults decodeZeroResults "nowhere" =
      GoResult.panic "runtime error: index out of range [0] with length 0" ∧
    forecastio.temperature { apiKey := "key" } getZeroResults decodeZeroResults
      decodeAbsentField (fun _ => "0.000000") "nowhere" =
      GoResult.panic "runtime error: index out of range [0] with length 0" := by
  exact ⟨rfl, rfl⟩

/-- On a transport error or an undecodable body `location` returns that error, on a
non-empty `Results` list it returns the coordinates of the first result, and an
error of `location` is what `forecastio.temperature` returns, with the value 0
and whatever the weather service and its decoder would have answered. -/
theorem location_and_forecastio_errors {β : Type} (get : String → Except ε (Response β))
    (decodeGeo : β → Except ε googleResponse) (city : String) :
    (∀ e, get ("https://maps.googleapis.com/maps/api/geocode/json?address=" ++ city) =
        Except.error e →
      location get decodeGeo city = GoResult.ret ({ Longitude := 0, Latitude := 0 }, some e)) ∧
    (∀ resp e, get ("https://maps.googleapis.com/maps/api/geocode/json?address=" ++ city) =
        Except.ok resp → decodeGeo resp.Body = Except.error e →
      location get decodeGeo city = GoResult.ret ({ Longitude := 0, Latitude := 0 }, some e)) ∧
    (∀ resp r rest, get ("https://maps.googleapis.com/maps/api/geocode/json?address=" ++ city) =
        Except.ok resp → decodeGeo resp.Body = Except.ok { Results := r :: rest } →
      location get decodeGeo city =
        GoResult.ret ({ Longitude := r.Longitude, Latitude := r.Latitude }, none)) ∧
    (∀ (w : forecastio) (decode : β → Except ε ℚ) (formatFloat : ℚ → String)
        (d : locationData) (e : ε),
      location get decodeGeo city = GoResult.ret (d, some e) →
      w.temperature get decodeGeo decode formatFloat city = GoResult.ret (0, some e)) := by
  refine ⟨?_, ?_, ?_, ?_⟩
  · intro e h
    simp [location, h]
  · intro resp e h hd
    simp [location, h, hd]
  · intro resp r rest h hd
    simp [location, h, hd]
  · intro w decode formatFloat d e h
    simp [forecastio.temperature, h]

/-- Claim C8. Every provider returns Kelvin: `openWeatherMap` returns the decoded
Kelvin reading unchanged, `weatherUnderground` returns `c + 273.15` for the
Celsius reading `c`, `forecastio` returns `(f - 32) * 5 / 9 + 273.15` for the
Fahrenheit reading `f`; so when `forecastio` reads `c * 9 / 5 + 32` where
`weatherUnderground` reads `c`, both return the same pair. -/
theorem providers_return_kelvin {β : Type} (get : String → Except ε (Response β))
    (city : String) (decodeGeo : β → Except ε googleResponse) (formatFloat : ℚ → String)
    (owm : openWeatherMap) (wu : weatherUnderground) (fio : forecastio) :
    (∀ decode resp k,
      get ("http://api.openweathermap.org/data/2.5/weather?q=" ++ city) = Except.ok resp →
      decode resp.Body = Except.ok k →
      owm.temperature get decode city = (k, none)) ∧
    (∀ decode resp c,
      get ("http://api.wunderground.com/api/" ++ wu.apiKey ++ "/conditions/q/uk/" ++ city ++
        ".json") = Except.ok resp →
      decode resp.Body = Except.ok c →
      wu.temperature get decode city = (c + 273.15, none)) ∧
    (∀ decode loc resp f, location get decodeGeo city = GoResult.ret (loc, none) →
      get ("https://api.forecast.io/forecast/" ++ fio.apiKey ++ "/" ++
        formatFloat loc.Latitude ++ "," ++ formatFloat loc.Longitude) = Except.ok resp →
      decode resp.Body = Except.ok f →
      fio.temperature get decodeGeo decode formatFloat city =
        GoResult.ret ((f - 32) * 5 / 9 + 273.15, none)) ∧
    (∀ decodeC decodeF loc respC respF c,
      get ("http://api.wunderground.com/api/" ++ wu.apiKey ++ "/conditions/q/uk/" ++ city ++
        ".json") = Except.ok respC →
      decodeC respC.Body = Except.ok c →
      location get decodeGeo city = GoResult.ret (loc, none) →
      get ("https://api.forecast.io/forecast/" ++ fio.apiKey ++ "/" ++
        formatFloat loc.Latitude ++ "," ++ formatFloat loc.Longitude) = Except.ok respF →
      decodeF respF.Body = Except.ok (c * 9 / 5 + 32) →
      fio.temperature get decodeGeo decodeF formatFloat city =
        GoResult.ret (wu.temperature get decodeC city)) := by
  have hfio : ∀ decode loc resp f, location get decodeGeo city = GoResult.ret (loc, none) →
      get ("https://api.forecast.io/forecast/" ++ fio.apiKey ++ "/" ++
        formatFloat loc.Latitude ++ "," ++ formatFloat loc.Longitude) = Except.ok resp →
      decode resp.Body = Except.ok f →
      fio.temperature get decodeGeo decode formatFloat city =
        GoResult.ret ((f - 32) * 5 / 9 + 273.15, none) := by
    intro decode loc resp f hloc hg hd
    simp [forecastio.temperature, hloc, hg, hd]
  have hwu : ∀ decode resp c,
      get ("http://api.wunderground.com/api/" ++ wu.apiKey ++ "/conditions/q/uk/" ++ city ++
        ".json") = Except.ok resp →
      decode resp.Body = Except.ok c →
      wu.temperature get decode city = (c + 273.15, none) := by
    intro decode resp c hg hd
    simp [weatherUnderground.temperature, hg, hd]
  refine ⟨?_, hwu, hfio, ?_⟩
  · intro decode resp k hg hd
    simp [openWeatherMap.temperature, hg, hd]
  · intro decodeC decodeF loc respC respF c hgC hdC hloc hgF hdF
    rw [hfio decodeF loc respF _ hloc hgF hdF, hwu decodeC respC c hgC hdC]
    congr 2
    ring

theorem providers_return_kelvin_witness :
    forecastio.temperature { apiKey := "key" } getOk decodeOneResult (fun _ => Except.ok 32)
      (fun _ => "0.000000") "london" = GoResult.ret (273.15, none) ∧
    weatherUnderground.temperature { apiKey := "key" } getOk (fun _ => Except.ok 0) "london" =
      (273.15, none) := by
  have h := providers_return_kelvin getOk "london" decodeOneResult (fun _ => "0.000000") {}
    { apiKey := "key" } { apiKey := "key" }
  refine ⟨?_, ?_⟩
  · rw [h.2.2.1 (fun _ => Except.ok 32) { Longitude := 0, Latitude := 51 }
      { StatusCode := 200, Body := "body" } 32 rfl rfl rfl]
    norm_num
  · rw [h.2.1 (fun _ => Except.ok 0) { StatusCode := 200, Body := "body" } 0 rfl rfl]
    norm_num

end GoPlay
